import Mathlib

set_option maxRecDepth 4000

/-!  Shallow embedding of the apollo repository's negotiation/settlement core
(`src/wallet/mock_wallet.py`, `src/games/auction.py`, `src/games/tournament.py`)
and proofs about it.  Python floats are modelled as exact rationals, Python
dicts keyed by token symbol as association lists in insertion order, and
`uuid`/`datetime` fields, which carry no program logic, are omitted from the
records.  The randomly jittered `ExchangeRateService.get_rate` is modelled as
an arbitrary snapshotted rate function `String → ℚ` supplied by the caller. -/

namespace Apollo

/-- Fee schedule `TOKEN_FEES`, with the source's `.get(token, 0.5)` default for
unknown tokens. -/
def TOKEN_FEES (token : String) : ℚ :=
  if token = "ETH" then 1/2
  else if token = "USDC" then 1/10
  else if token = "DAI" then 3/20
  else if token = "USDT" then 1/5
  else if token = "BTC" then 3/10
  else 1/2

/-- Transaction record (`mock_wallet.Transaction`); `tx_id`, `timestamp` and the
unused `status`/`warnings`/`errors` fields are omitted. -/
structure Transaction where
  from_wallet : String
  to_wallet : String
  token : String
  amount : ℚ
  amount_usd : ℚ
  fee : ℚ
  fee_usd : ℚ
  memo : Option String
  deriving DecidableEq

/-- Payment option (`mock_wallet.PaymentOption`). -/
structure PaymentOption where
  token : String
  balance : ℚ
  required_amount : ℚ
  fee_amount : ℚ
  total_amount : ℚ
  fee_percent : ℚ
  rate : ℚ
  remaining : ℚ
  is_affordable : Bool
  deriving DecidableEq

/-- Python dict assignment `d[k] = v`: replace the first binding of `k`, else
append a new binding (insertion order preserved, as in CPython). -/
def dictSet (l : List (String × ℚ)) (k : String) (v : ℚ) : List (String × ℚ) :=
  match l with
  | [] => [(k, v)]
  | (k', v') :: rest => if k' = k then (k, v) :: rest else (k', v') :: dictSet rest k v

/-- Python `d.get(k, 0)`. -/
def dictGet (l : List (String × ℚ)) (k : String) : ℚ :=
  match l with
  | [] => 0
  | (k', v') :: rest => if k' = k then v' else dictGet rest k

/-- Wallet (`mock_wallet.MockWallet`).  `budget_limit = none` models the
default `float('inf')`. -/
structure MockWallet where
  wallet_id : String
  owner : String
  balances : List (String × ℚ)
  transactions : List Transaction
  budget_limit : Option ℚ
  spent_total : ℚ
  deriving DecidableEq

/-- `MockWallet.get_balance`: balance of `token`, defaulting to 0. -/
def MockWallet.get_balance (w : MockWallet) (token : String) : ℚ :=
  dictGet w.balances token

/-- `MockWallet.can_afford`. -/
abbrev MockWallet.can_afford (w : MockWallet) (token : String) (amount : ℚ) : Prop :=
  w.get_balance token ≥ amount

/-- The error raised by `MockWallet.transfer` (`ValueError("Insufficient balance: ...")`). -/
inductive TransferError where
  | insufficientBalance
  deriving DecidableEq

/-- `MockWallet.transfer`: check-then-act transfer.  The Python method mutates
both wallets and returns the transaction, raising before any mutation when the
balance cannot cover amount plus fee; here the (source, destination) states
after the call are returned alongside the outcome. -/
def MockWallet.transfer (self to_wallet : MockWallet) (token : String)
    (amount exchange_rate : ℚ) (memo : Option String) (include_fee : Bool) :
    MockWallet × MockWallet × Except TransferError Transaction :=
  let fee_percent := TOKEN_FEES token
  let fee := if include_fee then amount * (fee_percent / 100) else 0
  let total_deduct := amount + fee
  if self.can_afford token total_deduct then
    let amount_usd := amount * exchange_rate
    let fee_usd := fee * exchange_rate
    let tx : Transaction :=
      { from_wallet := self.wallet_id, to_wallet := to_wallet.wallet_id, token := token,
        amount := amount, amount_usd := amount_usd, fee := fee, fee_usd := fee_usd,
        memo := memo }
    let self' : MockWallet :=
      { self with
        balances := dictSet self.balances token (self.get_balance token - total_deduct),
        spent_total := self.spent_total + (amount_usd + fee_usd),
        transactions := self.transactions ++ [tx] }
    let to' : MockWallet :=
      { to_wallet with
        balances := dictSet to_wallet.balances token (to_wallet.get_balance token + amount),
        transactions := to_wallet.transactions ++ [tx] }
    (self', to', Except.ok tx)
  else
    (self, to_wallet, Except.error TransferError.insufficientBalance)

/-- Sort key used by `get_payment_options`:
`options.sort(key=lambda x: (not x.is_affordable, x.fee_amount))` — the Python
tuple `(False, f) < (True, f')` is modelled as `(0, f) ≤ (1, f')`
lexicographically. -/
def optionKey (o : PaymentOption) : ℕ × ℚ :=
  ((if o.is_affordable then 0 else 1), o.fee_amount)

/-- Lexicographic comparison of sort keys. -/
def keyLe (a b : ℕ × ℚ) : Bool :=
  decide (a.1 < b.1 ∨ (a.1 = b.1 ∧ a.2 ≤ b.2))

/-- Stable insertion for the sort: a new element goes after every element whose
key is ≤ its own, as Python's stable `list.sort` keeps earlier elements first
on equal keys. -/
def stableInsert (x : PaymentOption) : List PaymentOption → List PaymentOption
  | [] => [x]
  | y :: ys =>
    if keyLe (optionKey y) (optionKey x) then y :: stableInsert x ys else x :: y :: ys

/-- Stable sort by `optionKey` (stable + sorted, hence exactly the list Python's
stable sort returns). -/
def stableSort (l : List PaymentOption) : List PaymentOption :=
  l.foldl (fun acc x => stableInsert x acc) []

/-- The body of the loop in `get_payment_options`: `none` models `continue`. -/
def mkPaymentOption (amount_usd : ℚ) (rate_of : String → ℚ) (kv : String × ℚ) :
    Option PaymentOption :=
  let token := kv.1
  let balance := kv.2
  if balance ≤ 0 then none
  else
    let rate := rate_of token
    if rate ≤ 0 then none
    else
      let required := amount_usd / rate
      let fee_percent := TOKEN_FEES token
      let fee := required * (fee_percent / 100)
      let total := required + fee
      some { token := token, balance := balance, required_amount := required,
             fee_amount := fee, total_amount := total, fee_percent := fee_percent,
             rate := rate, remaining := balance - total,
             is_affordable := decide (balance ≥ total) }

/-- `MockWallet.get_payment_options`: one option per held token with positive
balance and positive rate, sorted by `(not affordable, fee_amount)`. -/
def MockWallet.get_payment_options (w : MockWallet) (amount_usd : ℚ)
    (rate_of : String → ℚ) : List PaymentOption :=
  stableSort (w.balances.filterMap (mkPaymentOption amount_usd rate_of))

/-- `MockWallet.get_best_payment_option`: first affordable option of the sorted
list, if any. -/
def MockWallet.get_best_payment_option (w : MockWallet) (amount_usd : ℚ)
    (rate_of : String → ℚ) : Option PaymentOption :=
  ((w.get_payment_options amount_usd rate_of).filter (fun o => o.is_affordable)).head?

/-- Critical error tags produced by `IntentValidator`. -/
inductive VError where
  | INSUFFICIENT_BALANCE
  | OVER_BUDGET
  | CALCULATION_ERROR
  | BID_TOO_LOW
  | ILLOGICAL_COUNTER
  deriving DecidableEq

/-- Warning tags produced by `IntentValidator`. -/
inductive VWarning where
  | NEAR_BUDGET_LIMIT
  | SUBOPTIMAL_TOKEN
  | NO_IMPROVEMENT
  deriving DecidableEq

/-- The dict returned by the validator methods. -/
structure ValidationResult where
  valid : Bool
  errors : List VError
  warnings : List VWarning
  deriving DecidableEq

/-- `ExchangeRateService.convert_from_usd` at a snapshotted rate. -/
def convert_from_usd (rate_of : String → ℚ) (token : String) (usd_amount : ℚ) : ℚ :=
  let rate := rate_of token
  if rate > 0 then usd_amount / rate else 0

/-- The budget portion of `validate_payment` (check 2 of the source): no check
when the budget is infinite; over budget is a critical error; within 90-100
percent of the remaining budget is a warning. -/
def budget_checks (budget_limit : Option ℚ) (spent_total amount_usd : ℚ) :
    List VError × List VWarning :=
  match budget_limit with
  | none => ([], [])
  | some b =>
    let remaining := max 0 (b - spent_total)
    if amount_usd > remaining then ([VError.OVER_BUDGET], [])
    else if amount_usd > remaining * (9/10) then ([], [VWarning.NEAR_BUDGET_LIMIT])
    else ([], [])

/-- `IntentValidator.validate_payment`.  The `context` dict is reduced to its
only used key `min_bid`; Python's truthiness test `if min_bid and ...` skips a
zero as well as a missing value. -/
def IntentValidator.validate_payment (wallet : MockWallet) (token : String)
    (amount amount_usd : ℚ) (rate_of : String → ℚ) (min_bid : Option ℚ) :
    ValidationResult :=
  let fee_percent := TOKEN_FEES token
  let fee := amount * (fee_percent / 100)
  let total_needed := amount + fee
  let errs1 : List VError :=
    if wallet.get_balance token < total_needed then [VError.INSUFFICIENT_BALANCE] else []
  let budget_part := budget_checks wallet.budget_limit wallet.spent_total amount_usd
  let best_option := wallet.get_best_payment_option amount_usd rate_of
  let warns2 : List VWarning :=
    match best_option with
    | some best =>
      if best.token ≠ token ∧ TOKEN_FEES token > TOKEN_FEES best.token * (3/2) then
        [VWarning.SUBOPTIMAL_TOKEN]
      else []
    | none => []
  let expected_amount := convert_from_usd rate_of token amount_usd
  let errs3 : List VError :=
    if |amount - expected_amount| > expected_amount * (5/100) then
      [VError.CALCULATION_ERROR]
    else []
  let errs4 : List VError :=
    match min_bid with
    | some m => if m ≠ 0 ∧ amount_usd < m then [VError.BID_TOO_LOW] else []
    | none => []
  let errors := errs1 ++ budget_part.1 ++ errs3 ++ errs4
  let warnings := budget_part.2 ++ warns2
  { valid := errors.isEmpty, errors := errors, warnings := warnings }

/-- `IntentValidator.validate_counter_offer`. -/
def IntentValidator.validate_counter_offer (counter_amount original_amount : ℚ)
    (is_seller : Bool) : ValidationResult :=
  if is_seller then
    if counter_amount < original_amount then
      { valid := false, errors := [VError.ILLOGICAL_COUNTER], warnings := [] }
    else
      { valid := true, errors := [], warnings := [] }
  else
    if counter_amount ≤ original_amount then
      { valid := true, errors := [], warnings := [VWarning.NO_IMPROVEMENT] }
    else
      { valid := true, errors := [], warnings := [] }

/-! Concrete sample data used by counterexamples and witnesses. -/

/-- A wallet holding ETH and USDC. -/
def walletA : MockWallet :=
  { wallet_id := "wallet_a", owner := "alice",
    balances := [("ETH", 1000), ("USDC", 1000)],
    transactions := [], budget_limit := none, spent_total := 0 }

/-- A wallet holding USDC and DAI. -/
def walletB : MockWallet :=
  { wallet_id := "wallet_b", owner := "bob",
    balances := [("USDC", 1000), ("DAI", 1000)],
    transactions := [], budget_limit := none, spent_total := 0 }

/-- Snapshotted rates: ETH at 3500 USD, USDC at 1 USD. -/
def ratesA : String → ℚ :=
  fun t => if t = "ETH" then 3500 else if t = "USDC" then 1 else 0

/-- Snapshotted rates in which USDC and DAI trade at the same price. -/
def ratesB : String → ℚ :=
  fun t => if t = "USDC" then 1 else if t = "DAI" then 1 else 0

/-- The ETH payment option `walletA.get_payment_options 100 ratesA` produces. -/
def ethOptA : PaymentOption :=
  { token := "ETH", balance := 1000, required_amount := 1/35, fee_amount := 1/7000,
    total_amount := 201/7000, fee_percent := 1/2, rate := 3500,
    remaining := 6999799/7000, is_affordable := true }

/-- The USDC payment option produced for a 100 USD target at rate 1. -/
def usdcOptA : PaymentOption :=
  { token := "USDC", balance := 1000, required_amount := 100, fee_amount := 1/10,
    total_amount := 1001/10, fee_percent := 1/10, rate := 1,
    remaining := 8999/10, is_affordable := true }

/-- Source wallet for the transfer witnesses. -/
def srcW : MockWallet :=
  { wallet_id := "w_src", owner := "s", balances := [("ETH", 10)],
    transactions := [], budget_limit := none, spent_total := 0 }

/-- Destination wallet for the transfer witnesses. -/
def dstW : MockWallet :=
  { wallet_id := "w_dst", owner := "d", balances := [],
    transactions := [], budget_limit := none, spent_total := 0 }

/-- The transaction record of transferring 1 ETH from `srcW` to `dstW` at rate 3500. -/
def txC : Transaction :=
  { from_wallet := "w_src", to_wallet := "w_dst", token := "ETH", amount := 1,
    amount_usd := 3500, fee := 1/200, fee_usd := 35/2, memo := none }


/-!  Shallow embedding of `src/games/tournament.py` (the parts the claims are
about: bid submission/validation, round settlement, bankruptcies, trades).
Item generation and `next_round` are driven by `random` and are not modelled.
The players dict is an association list keyed by the `player_id` field; the
per-item cost dict `item_costs` is a function `String → Option ℚ` (Python dict
equality ignores insertion order, so the function view is faithful). -/

namespace Tournament

/-- `tournament.BidResult`. -/
inductive BidResult where
  | WINNING
  | OUTBID
  | INVALID
  deriving DecidableEq

/-- `tournament.IntentErrorType`. -/
inductive IntentErrorType where
  | OVERPAY
  | SUBOPTIMAL_TOKEN
  | BUDGET_EXCEED
  | ILLOGICAL_BID
  | BROKEN_PROMISE
  | CALCULATION_ERROR
  deriving DecidableEq

/-- `tournament.TournamentItem`. -/
structure TournamentItem where
  item_id : String
  name : String
  description : String
  hint : String
  estimate_low : ℚ
  estimate_high : ℚ
  true_value : ℚ
  category : String
  rarity : String
  deriving DecidableEq

/-- An entry of `PlayerState.intent_errors` (`add_intent_error`); the formatted
message and timestamp are omitted. -/
structure IntentErrorRecord where
  type : IntentErrorType
  round : ℕ
  deriving DecidableEq

/-- `tournament.PlayerState`. -/
structure PlayerState where
  player_id : String
  name : String
  model : String
  cash : ℚ
  items : List TournamentItem
  is_active : Bool
  is_bankrupt : Bool
  bankrupt_round : ℤ
  total_spent : ℚ
  total_items_won : ℕ
  intent_errors : List IntentErrorRecord
  item_costs : String → Option ℚ

/-- `tournament.Bid`; the uuid `bid_id` is modelled by a per-game counter. -/
structure Bid where
  bid_id : ℕ
  player_id : String
  player_name : String
  amount : ℚ
  reasoning : String
  result : BidResult
  intent_errors : List IntentErrorType
  deriving DecidableEq

/-- `tournament.RoundResult` (`negotiations`/`events` omitted: always empty at
creation). -/
structure RoundResult where
  round_num : ℕ
  item : Option TournamentItem
  winner : Option String
  winning_bid : Option ℚ
  all_bids : List Bid
  intent_errors : List IntentErrorType

/-- `tournament.GameState` (phase and the event log strings are omitted). -/
structure GameState where
  game_id : String
  current_round : ℕ
  total_rounds : ℕ
  players : List PlayerState
  round_results : List RoundResult
  current_item : Option TournamentItem
  current_bids : List Bid
  starting_cash : ℚ
  total_intent_errors : ℕ
  bid_counter : ℕ

/-- `self.state.players.get(player_id)`. -/
def lookupPlayer (st : GameState) (pid : String) : Option PlayerState :=
  st.players.find? (fun p => p.player_id == pid)

/-- In-place mutation of the player stored under `pid` (Python mutates the
object held in the dict). -/
def updatePlayer (st : GameState) (pid : String) (f : PlayerState → PlayerState) :
    GameState :=
  { st with players := st.players.map (fun p => if p.player_id == pid then f p else p) }

/-- `TournamentEngine._validate_bid`: budget-exceed and gross-overpay checks. -/
def validate_bid (player : PlayerState) (amount : ℚ) (item : TournamentItem) :
    List IntentErrorType :=
  (if amount > player.cash then [IntentErrorType.BUDGET_EXCEED] else [])
    ++ (if amount > item.estimate_high * (3/2) then [IntentErrorType.OVERPAY] else [])

/-- Python `max(bids, key=lambda b: b.amount)`: the first bid with the maximal
amount (`>` keeps the earlier element on ties). -/
def firstMaxBid (l : List Bid) : Option Bid :=
  l.foldl
    (fun acc b =>
      match acc with
      | none => some b
      | some m => if b.amount > m.amount then some b else acc)
    none

/-- `TournamentEngine._update_bid_results`. -/
def update_bid_results (st : GameState) : GameState :=
  let valid_bids := st.current_bids.filter (fun b => b.result ≠ BidResult.INVALID)
  match firstMaxBid valid_bids with
  | none => st
  | some max_bid =>
    { st with
      current_bids := st.current_bids.map (fun b =>
        if b.result = BidResult.INVALID then b
        else if b.bid_id = max_bid.bid_id then { b with result := BidResult.WINNING }
        else { b with result := BidResult.OUTBID }) }

/-- `TournamentEngine.submit_bid`: errors model the `ValueError` on an unknown
or inactive player, and the attribute error a missing current item would
raise.  Returns the new state and the recorded bid (after
`_update_bid_results`, which never alters an INVALID bid). -/
def submit_bid (st : GameState) (player_id : String) (amount : ℚ)
    (reasoning : String) : Except String (GameState × Bid) :=
  match lookupPlayer st player_id with
  | none => Except.error "invalid player"
  | some player =>
    if ¬ player.is_active then Except.error "invalid player"
    else
      match st.current_item with
      | none => Except.error "no current item"
      | some item =>
        let errors := validate_bid player amount item
        let bid : Bid :=
          { bid_id := st.bid_counter, player_id := player_id,
            player_name := player.name, amount := amount, reasoning := reasoning,
            result := if errors = [] then BidResult.WINNING else BidResult.INVALID,
            intent_errors := errors }
        let st1 :=
          if errors = [] then st
          else
            let st' := updatePlayer st player_id (fun p =>
              { p with intent_errors := p.intent_errors
                  ++ errors.map (fun e => { type := e, round := st.current_round }) })
            { st' with total_intent_errors := st'.total_intent_errors + errors.length }
        let st2 :=
          { st1 with
            current_bids := st1.current_bids ++ [bid]
            bid_counter := st1.bid_counter + 1 }
        Except.ok (update_bid_results st2, bid)

/-- `TournamentEngine._check_bankruptcies`. -/
def check_bankruptcies (st : GameState) : GameState :=
  { st with
    players := st.players.map (fun p =>
      if p.is_active ∧ p.cash ≤ 0 then
        { p with is_bankrupt := true, is_active := false,
                 bankrupt_round := (st.current_round : ℤ) }
      else p) }

/-- `TournamentEngine.end_auction_round`: settle the highest valid bid, if any.
`none` models the crash a missing current item or an unknown winner id would
cause. -/
def end_auction_round (st : GameState) : Option (GameState × RoundResult) :=
  match st.current_item with
  | none => none
  | some item =>
    let valid_bids := st.current_bids.filter (fun b => b.result ≠ BidResult.INVALID)
    match firstMaxBid valid_bids with
    | some max_bid =>
      match lookupPlayer st max_bid.player_id with
      | none => none
      | some winner_player =>
        let st1 := updatePlayer st max_bid.player_id (fun p =>
          { p with cash := p.cash - max_bid.amount,
                   total_spent := p.total_spent + max_bid.amount,
                   items := p.items ++ [item],
                   item_costs := Function.update p.item_costs item.item_id
                     (some max_bid.amount),
                   total_items_won := p.total_items_won + 1 })
        let st2 := check_bankruptcies st1
        let result : RoundResult :=
          { round_num := st.current_round, item := some item,
            winner := some winner_player.name, winning_bid := some max_bid.amount,
            all_bids := st.current_bids,
            intent_errors := st.current_bids.flatMap (fun b => b.intent_errors) }
        some ({ st2 with round_results := st2.round_results ++ [result] }, result)
    | none =>
      let result : RoundResult :=
        { round_num := st.current_round, item := some item,
          winner := none, winning_bid := none,
          all_bids := st.current_bids,
          intent_errors := st.current_bids.flatMap (fun b => b.intent_errors) }
      some ({ st with round_results := st.round_results ++ [result] }, result)

/-- The used keys of `NegotiationOffer.details` as `execute_trade` reads them
(`offer.details.get(...)`). -/
structure TradeDetails where
  offer_item_id : Option String
  request_item_id : Option String
  cash_offer : ℚ
  cash_request : ℚ
  deriving DecidableEq

/-- One item transfer inside `execute_trade`: `remove` from the source,
`append` to the destination, and move the recorded cost when there is one. -/
def moveItem (st : GameState) (src dst : String) (i : TournamentItem) : GameState :=
  let cost : Option ℚ :=
    match lookupPlayer st src with
    | some p => p.item_costs i.item_id
    | none => none
  let st1 := updatePlayer st src (fun p =>
    { p with items := p.items.erase i,
             item_costs :=
               match cost with
               | some _ => Function.update p.item_costs i.item_id none
               | none => p.item_costs })
  updatePlayer st1 dst (fun p =>
    { p with items := p.items ++ [i],
             item_costs :=
               match cost with
               | some c => Function.update p.item_costs i.item_id (some c)
               | none => p.item_costs })

/-- One cash transfer inside `execute_trade`. -/
def transferCash (st : GameState) (payer payee : String) (amount : ℚ) : GameState :=
  let st1 := updatePlayer st payer (fun p => { p with cash := p.cash - amount })
  updatePlayer st1 payee (fun p => { p with cash := p.cash + amount })

/-- `TournamentEngine.execute_trade`.  The source looks items up by id inside
the respective owner's inventory, so its own `not in` feasibility checks can
never fire (a found item is a member by construction); they are kept here as
written. -/
def execute_trade (st : GameState) (details : TradeDetails)
    (from_player_id to_player_id : String) : GameState × Bool :=
  match lookupPlayer st from_player_id, lookupPlayer st to_player_id with
  | some from_player, some to_player =>
    let offer_item : Option TournamentItem :=
      match details.offer_item_id with
      | some oid => from_player.items.find? (fun i => i.item_id == oid)
      | none => none
    let request_item : Option TournamentItem :=
      match details.request_item_id with
      | some rid => to_player.items.find? (fun i => i.item_id == rid)
      | none => none
    if (match offer_item with
        | some i => !(from_player.items.contains i)
        | none => false) then (st, false)
    else if (match request_item with
        | some i => !(to_player.items.contains i)
        | none => false) then (st, false)
    else if details.cash_offer > from_player.cash then (st, false)
    else if details.cash_request > to_player.cash then (st, false)
    else
      let st1 :=
        match offer_item with
        | some i => moveItem st from_player_id to_player_id i
        | none => st
      let st2 :=
        match request_item with
        | some i => moveItem st1 to_player_id from_player_id i
        | none => st1
      let st3 :=
        if details.cash_offer > 0 then
          transferCash st2 from_player_id to_player_id details.cash_offer
        else st2
      let st4 :=
        if details.cash_request > 0 then
          transferCash st3 to_player_id from_player_id details.cash_request
        else st3
      (st4, true)
  | _, _ => (st, false)

/-! Concrete sample data for the tournament claims. -/

/-- A round item with estimate range 50-100. -/
def itemT : TournamentItem :=
  { item_id := "it1", name := "vase", description := "old", hint := "maybe fake",
    estimate_low := 50, estimate_high := 100, true_value := 90,
    category := "art", rarity := "unique" }

/-- A player with 50 cash. -/
def playerP1 : PlayerState :=
  { player_id := "p1", name := "Alice", model := "m1", cash := 50, items := [],
    is_active := true, is_bankrupt := false, bankrupt_round := -1,
    total_spent := 0, total_items_won := 0, intent_errors := [],
    item_costs := fun _ => none }

/-- A player with 100 cash. -/
def playerP2 : PlayerState :=
  { player_id := "p2", name := "Bob", model := "m2", cash := 100, items := [],
    is_active := true, is_bankrupt := false, bankrupt_round := -1,
    total_spent := 0, total_items_won := 0, intent_errors := [],
    item_costs := fun _ => none }

/-- Game state before any bid of the round. -/
def stT0 : GameState :=
  { game_id := "g1", current_round := 1, total_rounds := 10,
    players := [playerP1, playerP2], round_results := [],
    current_item := some itemT, current_bids := [], starting_cash := 1000,
    total_intent_errors := 0, bid_counter := 0 }

/-- An over-budget (hence INVALID) recorded bid of 80 by the 50-cash player. -/
def bidInvalid : Bid :=
  { bid_id := 0, player_id := "p1", player_name := "Alice", amount := 80,
    reasoning := "", result := BidResult.INVALID,
    intent_errors := [IntentErrorType.BUDGET_EXCEED] }

/-- A valid recorded bid of 60 by the 100-cash player. -/
def bidValid : Bid :=
  { bid_id := 1, player_id := "p2", player_name := "Bob", amount := 60,
    reasoning := "", result := BidResult.WINNING, intent_errors := [] }

/-- Game state holding the invalid 80 bid and the valid 60 bid. -/
def stT1 : GameState :=
  { stT0 with current_bids := [bidInvalid, bidValid], bid_counter := 2 }

/-- Trading player with 10 cash and no items. -/
def pTrade1 : PlayerState :=
  { player_id := "p1", name := "P1", model := "m", cash := 10, items := [],
    is_active := true, is_bankrupt := false, bankrupt_round := -1,
    total_spent := 0, total_items_won := 0, intent_errors := [],
    item_costs := fun _ => none }

/-- Trading player with no cash and no items. -/
def pTrade2 : PlayerState :=
  { player_id := "p2", name := "P2", model := "m", cash := 0, items := [],
    is_active := true, is_bankrupt := false, bankrupt_round := -1,
    total_spent := 0, total_items_won := 0, intent_errors := [],
    item_costs := fun _ => none }

/-- State for the ghost-item trade counterexample. -/
def stTrade : GameState :=
  { game_id := "g2", current_round := 3, total_rounds := 10,
    players := [pTrade1, pTrade2], round_results := [], current_item := none,
    current_bids := [], starting_cash := 1000, total_intent_errors := 0,
    bid_counter := 0 }

/-- A trade offering an item id the offerer does not own, plus 5 cash. -/
def tdGhost : TradeDetails :=
  { offer_item_id := some "X", request_item_id := none,
    cash_offer := 5, cash_request := 0 }

/-- Item with id I (cost record 30 at `pRound1`). -/
def itemI : TournamentItem :=
  { item_id := "I", name := "painting", description := "d", hint := "h",
    estimate_low := 10, estimate_high := 40, true_value := 25,
    category := "art", rarity := "unique" }

/-- Item with id J. -/
def itemJ : TournamentItem :=
  { item_id := "J", name := "watch", description := "d", hint := "h",
    estimate_low := 20, estimate_high := 60, true_value := 55,
    category := "luxury", rarity := "unique" }

/-- Round-trip player owning [I, J]. -/
def pRound1 : PlayerState :=
  { player_id := "p1", name := "R1", model := "m", cash := 100,
    items := [itemI, itemJ],
    is_active := true, is_bankrupt := false, bankrupt_round := -1,
    total_spent := 0, total_items_won := 0, intent_errors := [],
    item_costs := fun k => if k = "I" then some 30 else none }

/-- Round-trip counterparty with no items. -/
def pRound2 : PlayerState :=
  { player_id := "p2", name := "R2", model := "m", cash := 50, items := [],
    is_active := true, is_bankrupt := false, bankrupt_round := -1,
    total_spent := 0, total_items_won := 0, intent_errors := [],
    item_costs := fun _ => none }

/-- State for the round-trip trade counterexample. -/
def stRound : GameState :=
  { game_id := "g3", current_round := 6, total_rounds := 10,
    players := [pRound1, pRound2], round_results := [], current_item := none,
    current_bids := [], starting_cash := 1000, total_intent_errors := 0,
    bid_counter := 0 }

/-- A pure item trade of I, no cash. -/
def tdItemI : TradeDetails :=
  { offer_item_id := some "I", request_item_id := none,
    cash_offer := 0, cash_request := 0 }

end Tournament

namespace Auction

/-- `auction.BidStatus`. -/
inductive BidStatus where
  | PENDING
  | ACCEPTED
  | REJECTED
  | COUNTERED
  deriving DecidableEq

/-- `auction.AuctionStatus`. -/
inductive AuctionStatus where
  | OPEN
  | NEGOTIATING
  | SOLD
  | CANCELLED
  deriving DecidableEq

/-- `auction.AuctionItem`. -/
structure AuctionItem where
  item_id : String
  name : String
  description : String
  reserve_price : ℚ
  seller : String
  deriving DecidableEq

/-- `auction.Bid`; the uuid `bid_id` is modelled by the length of the bid list
at creation time (unique by construction), `timestamp`, `message` and the
token/fee fields (never read in the control flow modelled here) are omitted. -/
structure Bid where
  bid_id : ℕ
  bidder : String
  amount : ℚ
  status : BidStatus
  deriving DecidableEq

/-- `auction.NegotiationRound` (message and timestamp omitted). -/
structure NegotiationRound where
  round_number : ℕ
  action : String
  from_agent : String
  to_agent : String
  amount : ℚ
  deriving DecidableEq

/-- The dict returned by a buyer's `create_payment_intent`. -/
structure PaymentIntent where
  token : String
  amount : ℚ
  amount_usd : ℚ
  recipient : String
  reasoning : String
  deriving DecidableEq

/-- The two error kinds produced by `AuctionGame._validate_payment_intent`. -/
inductive PaymentError where
  | AMOUNT_MISMATCH
  | WRONG_RECIPIENT
  deriving DecidableEq

/-- `auction.AuctionState` (the unused payment_token/fee fields and the
intent_errors/intent_warnings logs, untouched by the methods modelled here,
are omitted). -/
structure AuctionState where
  item : AuctionItem
  status : AuctionStatus
  current_price : ℚ
  highest_bidder : Option String
  bids : List Bid
  negotiation_history : List NegotiationRound
  winner : Option String
  final_price : Option ℚ
  payment_intent : Option PaymentIntent
  payment_errors : List PaymentError

/-- A seller response dict: `{"action": ..., "counter_amount": ...}`. -/
inductive SellerResp where
  | accept
  | reject
  | counter (counter_amount : ℚ)

/-- A buyer response dict: `{"action": ..., "new_amount": ...}`. -/
inductive BuyerResp where
  | accept
  | reject
  | counter (new_amount : ℚ)

/-- The seller agent, as the pure response function the game calls
(`respond_to_bid`); `item`/`reserve_price` arguments are fixed per game. -/
structure Seller where
  name : String
  respond_to_bid : Bid → SellerResp

/-- A buyer agent: `make_bid(current_price, bid_history)`,
`respond_to_counter(counter_amount, original_bid)` and
`create_payment_intent(amount_usd, recipient)` as pure functions. -/
structure Buyer where
  name : String
  make_bid : ℚ → List Bid → Option ℚ
  respond_to_counter : ℚ → ℚ → BuyerResp
  create_payment_intent : ℚ → String → PaymentIntent

/-- `seller_response["action"]` as recorded in the negotiation history. -/
def sellerRespAction : SellerResp → String
  | SellerResp.accept => "accept"
  | SellerResp.reject => "reject"
  | SellerResp.counter _ => "counter"

/-- `seller_response.get("counter_amount", default)`. -/
def sellerRespAmount (r : SellerResp) (default : ℚ) : ℚ :=
  match r with
  | SellerResp.counter c => c
  | _ => default

/-- `response["action"]` for a buyer response. -/
def buyerRespAction : BuyerResp → String
  | BuyerResp.accept => "accept"
  | BuyerResp.reject => "reject"
  | BuyerResp.counter _ => "counter"

/-- `response.get("new_amount", default)`. -/
def buyerRespAmount (r : BuyerResp) (default : ℚ) : ℚ :=
  match r with
  | BuyerResp.counter n => n
  | _ => default

/-- In-place mutation `bid.status = s` of a bid object held in `state.bids`
(object identity modelled by the unique `bid_id`). -/
def modifyBidById (st : AuctionState) (id : ℕ) (s : BidStatus) : AuctionState :=
  { st with bids := st.bids.map (fun b =>
      if b.bid_id == id then { b with status := s } else b) }

/-- `AuctionGame.collect_bids`: ask each buyer in order; a `some` response
creates a bid appended both to the returned round list and to `state.bids`. -/
def collectBids (buyers : List Buyer) (st : AuctionState) :
    List Bid × AuctionState :=
  match buyers with
  | [] => ([], st)
  | buyer :: rest =>
    match buyer.make_bid st.current_price st.bids with
    | some amount =>
      let bid : Bid :=
        { bid_id := st.bids.length, bidder := buyer.name, amount := amount,
          status := BidStatus.PENDING }
      let res := collectBids rest { st with bids := st.bids ++ [bid] }
      (bid :: res.1, res.2)
    | none => collectBids rest st

/-- Python `max(bids, key=lambda b: b.amount)` on a nonempty list: the first
bid with the maximal amount. -/
def firstMaxABid (b : Bid) (rest : List Bid) : Bid :=
  rest.foldl (fun m x => if x.amount > m.amount then x else m) b

/-- `AuctionGame._handle_counter_offer_continue`, parameterised by the
continuation (`_continue_negotiation`) it tail-calls on a buyer counter. -/
def handleCounterOfferContinueWith
    (cont : AuctionState → Bid → ℕ → AuctionState)
    (seller : Seller) (buyers : List Buyer) (round : ℕ)
    (st : AuctionState) (buyer_name : String)
    (counter_amount original_bid : ℚ) (depth : ℕ) : AuctionState :=
  if st.status = AuctionStatus.SOLD then st
  else
    match buyers.find? (fun b => b.name == buyer_name) with
    | none => st
    | some buyer =>
      let resp := buyer.respond_to_counter counter_amount original_bid
      let st1 := { st with negotiation_history := st.negotiation_history ++
        [{ round_number := round, action := buyerRespAction resp,
           from_agent := buyer_name, to_agent := seller.name,
           amount := buyerRespAmount resp counter_amount }] }
      match resp with
      | BuyerResp.accept =>
        { st1 with winner := some buyer_name,
                   final_price := some counter_amount,
                   status := AuctionStatus.SOLD }
      | BuyerResp.reject => st1
      | BuyerResp.counter new_amount =>
        let new_bid : Bid :=
          { bid_id := st1.bids.length, bidder := buyer_name,
            amount := new_amount, status := BidStatus.PENDING }
        let st2 := { st1 with bids := st1.bids ++ [new_bid] }
        cont st2 new_bid depth

/-- `AuctionGame._continue_negotiation`.  The Python recursion is bounded by
the `depth >= 3` guard (depth strictly increases on each seller counter); the
structural `fuel` argument is the termination device and is never exhausted
when `fuel ≥ 4 - depth`, as at every call site here. -/
def continueNegotiation (seller : Seller) (buyers : List Buyer) (round : ℕ) :
    ℕ → AuctionState → Bid → ℕ → AuctionState
  | 0, st, _, _ => st
  | fuel + 1, st, bid, depth =>
    if 3 ≤ depth then st
    else if st.status = AuctionStatus.SOLD then st
    else
      let resp := seller.respond_to_bid bid
      let st1 := { st with negotiation_history := st.negotiation_history ++
        [{ round_number := round, action := sellerRespAction resp,
           from_agent := seller.name, to_agent := bid.bidder,
           amount := sellerRespAmount resp bid.amount }] }
      match resp with
      | SellerResp.accept =>
        let st2 := modifyBidById st1 bid.bid_id BidStatus.ACCEPTED
        { st2 with winner := some bid.bidder, final_price := some bid.amount,
                   status := AuctionStatus.SOLD }
      | SellerResp.reject => modifyBidById st1 bid.bid_id BidStatus.REJECTED
      | SellerResp.counter c =>
        let st2 := modifyBidById st1 bid.bid_id BidStatus.COUNTERED
        handleCounterOfferContinueWith
          (continueNegotiation seller buyers round fuel)
          seller buyers round st2 bid.bidder c bid.amount (depth + 1)

/-- `AuctionGame._handle_counter_offer` (the initial one: no SOLD guard, and
`original_bid` is read from the LAST bid in the global history, 0 if none);
a buyer counter enters `_continue_negotiation` at depth 0. -/
def handleCounterOffer (seller : Seller) (buyers : List Buyer) (round : ℕ)
    (st : AuctionState) (buyer_name : String) (counter_amount : ℚ) :
    AuctionState :=
  match buyers.find? (fun b => b.name == buyer_name) with
  | none => st
  | some buyer =>
    let original_bid :=
      match st.bids.getLast? with
      | some b => b.amount
      | none => 0
    let resp := buyer.respond_to_counter counter_amount original_bid
    let st1 := { st with negotiation_history := st.negotiation_history ++
      [{ round_number := round, action := buyerRespAction resp,
         from_agent := buyer_name, to_agent := seller.name,
         amount := buyerRespAmount resp counter_amount }] }
    match resp with
    | BuyerResp.accept =>
      { st1 with winner := some buyer_name,
                 final_price := some counter_amount,
                 status := AuctionStatus.SOLD }
    | BuyerResp.reject => st1
    | BuyerResp.counter new_amount =>
      let new_bid : Bid :=
        { bid_id := st1.bids.length, bidder := buyer_name,
          amount := new_amount, status := BidStatus.PENDING }
      let st2 := { st1 with bids := st1.bids ++ [new_bid] }
      continueNegotiation seller buyers round 4 st2 new_bid 0

/-- `AuctionGame.negotiate`. -/
def negotiate (seller : Seller) (buyers : List Buyer) (round : ℕ)
    (st : AuctionState) (bid : Bid) : AuctionState :=
  let st0 := { st with status := AuctionStatus.NEGOTIATING }
  let resp := seller.respond_to_bid bid
  let st1 := { st0 with negotiation_history := st0.negotiation_history ++
    [{ round_number := round, action := sellerRespAction resp,
       from_agent := seller.name, to_agent := bid.bidder,
       amount := sellerRespAmount resp bid.amount }] }
  match resp with
  | SellerResp.accept =>
    let st2 := modifyBidById st1 bid.bid_id BidStatus.ACCEPTED
    { st2 with winner := some bid.bidder, final_price := some bid.amount,
               status := AuctionStatus.SOLD }
  | SellerResp.reject => modifyBidById st1 bid.bid_id BidStatus.REJECTED
  | SellerResp.counter c =>
    let st2 := modifyBidById st1 bid.bid_id BidStatus.COUNTERED
    handleCounterOffer seller buyers round st2 bid.bidder c

/-- `AuctionGame._validate_payment_intent`: the 5% amount tolerance and the
recipient identity check, in source order. -/
def validate_payment_intent (seller_name : String) (intent : PaymentIntent)
    (expected_amount : ℚ) : List PaymentError :=
  (if |intent.amount_usd - expected_amount| > expected_amount * (5/100)
    then [PaymentError.AMOUNT_MISMATCH] else [])
  ++ (if intent.recipient ≠ seller_name
    then [PaymentError.WRONG_RECIPIENT] else [])

/-- Result of `AuctionGame.process_payment` (the returned dict). -/
inductive PaymentOutcome where
  | notSold
  | winnerNotFound
  | failed (errors : List PaymentError)
  | succeeded
  deriving DecidableEq

/-- `AuctionGame.process_payment`; `none` models the crash a `None`
`final_price` would cause inside the validation arithmetic. -/
def process_payment (seller_name : String) (buyers : List Buyer)
    (st : AuctionState) : Option (AuctionState × PaymentOutcome) :=
  if st.status ≠ AuctionStatus.SOLD then some (st, PaymentOutcome.notSold)
  else
    match buyers.find? (fun b => some b.name == st.winner) with
    | none => some (st, PaymentOutcome.winnerNotFound)
    | some winner =>
      match st.final_price with
      | none => none
      | some fp =>
        let intent := winner.create_payment_intent fp seller_name
        let st1 := { st with payment_intent := some intent }
        let errors := validate_payment_intent seller_name intent fp
        if errors = [] then some (st1, PaymentOutcome.succeeded)
        else some ({ st1 with payment_errors := errors },
                   PaymentOutcome.failed errors)

/-- The state built by `AuctionGame.__init__`. -/
def initAuctionState (item : AuctionItem) : AuctionState :=
  { item := item, status := AuctionStatus.OPEN,
    current_price := item.reserve_price, highest_bidder := none, bids := [],
    negotiation_history := [], winner := none, final_price := none,
    payment_intent := none, payment_errors := [] }

/-- The `while` loop of `AuctionGame.run_auction`; structural fuel
`max_rounds - round` mirrors the loop guard `current_round < max_rounds`
(the trailing `if status == SOLD: break` is subsumed by re-checking the
guard). -/
def runLoop (seller : Seller) (buyers : List Buyer) (max_rounds : ℕ) :
    ℕ → ℕ → AuctionState → AuctionState
  | 0, _, st => st
  | fuel + 1, round, st =>
    if round < max_rounds ∧ st.status ≠ AuctionStatus.SOLD then
      let round' := round + 1
      let res := collectBids buyers st
      match res.1 with
      | [] => { res.2 with status := AuctionStatus.CANCELLED }
      | b :: restBids =>
        let highest := firstMaxABid b restBids
        let st2 := { res.2 with
          current_price := highest.amount
          highest_bidder := some highest.bidder }
        let st3 := negotiate seller buyers round' st2 highest
        runLoop seller buyers max_rounds fuel round' st3
    else st

/-- `AuctionGame.run_auction`: start, loop, then payment when sold. -/
def runAuction (seller : Seller) (buyers : List Buyer) (max_rounds : ℕ)
    (item : AuctionItem) : Option AuctionState :=
  let st0 := { initAuctionState item with status := AuctionStatus.OPEN }
  let st1 := runLoop seller buyers max_rounds max_rounds 0 st0
  if st1.status = AuctionStatus.SOLD then
    match process_payment seller.name buyers st1 with
    | some (st2, _) => some st2
    | none => none
  else some st1

/-! Concrete sample data for the auction claims. -/

/-- Seller that always counters at 120. -/
def sellerC : Seller :=
  { name := "S", respond_to_bid := fun _ => SellerResp.counter 120 }

/-- Buyer that always bids 100 and always counters at 110. -/
def buyerC : Buyer :=
  { name := "B", make_bid := fun _ _ => some 100,
    respond_to_counter := fun _ _ => BuyerResp.counter 110,
    create_payment_intent := fun fp s =>
      { token := "USDC", amount := fp, amount_usd := fp, recipient := s,
        reasoning := "" } }

/-- Auction item with reserve 50 sold by S. -/
def itemC : AuctionItem :=
  { item_id := "it1", name := "vase", description := "d",
    reserve_price := 50, seller := "S" }

/-- A sold auction state awaiting payment from winner W at price 100. -/
def stSold : AuctionState :=
  { item := itemC, status := AuctionStatus.SOLD, current_price := 100,
    highest_bidder := some "W", bids := [], negotiation_history := [],
    winner := some "W", final_price := some 100, payment_intent := none,
    payment_errors := [] }

/-- Winner whose payment intent has a zero USD amount and a recipient that is
not the seller. -/
def buyerW : Buyer :=
  { name := "W", make_bid := fun _ _ => none,
    respond_to_counter := fun _ _ => BuyerResp.reject,
    create_payment_intent := fun _ _ =>
      { token := "ETH", amount := 1, amount_usd := 0, recipient := "Mallory",
        reasoning := "" } }

end Auction

end Apollo

/-! ## Theorems -/

namespace Apollo

/-! Small evaluation lemmas for the concrete sample data: rewriting an applied
rate function or fee lookup to its numeral before `norm_num` evaluates the
program functions. -/

theorem ratesA_ETH : ratesA "ETH" = 3500 := rfl

theorem ratesA_USDC : ratesA "USDC" = 1 := rfl

theorem ratesB_USDC : ratesB "USDC" = 1 := rfl

theorem ratesB_DAI : ratesB "DAI" = 1 := rfl

theorem fees_ETH : TOKEN_FEES "ETH" = 1/2 := rfl

theorem fees_USDC : TOKEN_FEES "USDC" = 1/10 := rfl

theorem fees_DAI : TOKEN_FEES "DAI" = 3/20 := rfl

theorem dictGet_dictSet (l : List (String × ℚ)) (k : String) (v : ℚ) :
    dictGet (dictSet l k v) k = v := by
  induction l with
  | nil => simp [dictSet, dictGet]
  | cons hd tl ih =>
    obtain ⟨k', v'⟩ := hd
    by_cases h : k' = k
    · simp [dictSet, dictGet, h]
    · simp [dictSet, dictGet, h, ih]

theorem keyLe_refl (a : ℕ × ℚ) : keyLe a a = true := by
  simp [keyLe]

theorem keyLe_total (a b : ℕ × ℚ) : keyLe a b = true ∨ keyLe b a = true := by
  simp only [keyLe, decide_eq_true_eq]
  rcases lt_trichotomy a.1 b.1 with h | h | h
  · exact Or.inl (Or.inl h)
  · rcases le_total a.2 b.2 with h2 | h2
    · exact Or.inl (Or.inr ⟨h, h2⟩)
    · exact Or.inr (Or.inr ⟨h.symm, h2⟩)
  · exact Or.inr (Or.inl h)

theorem keyLe_trans {a b c : ℕ × ℚ} (h1 : keyLe a b = true) (h2 : keyLe b c = true) :
    keyLe a c = true := by
  simp only [keyLe, decide_eq_true_eq] at h1 h2 ⊢
  rcases h1 with h1 | ⟨e1, l1⟩ <;> rcases h2 with h2 | ⟨e2, l2⟩
  · exact Or.inl (h1.trans h2)
  · exact Or.inl (lt_of_lt_of_le h1 (le_of_eq e2))
  · exact Or.inl (lt_of_le_of_lt (le_of_eq e1) h2)
  · exact Or.inr ⟨e1.trans e2, l1.trans l2⟩

theorem mem_stableInsert {z x : PaymentOption} {l : List PaymentOption} :
    z ∈ stableInsert x l ↔ z = x ∨ z ∈ l := by
  induction l with
  | nil => simp [stableInsert]
  | cons y ys ih =>
    by_cases h : keyLe (optionKey y) (optionKey x) = true
    · rw [stableInsert, if_pos h]
      simp only [List.mem_cons, ih]
      tauto
    · rw [stableInsert, if_neg h]
      simp [List.mem_cons]

theorem pairwise_stableInsert (x : PaymentOption) (l : List PaymentOption)
    (h : l.Pairwise (fun a b => keyLe (optionKey a) (optionKey b) = true)) :
    (stableInsert x l).Pairwise (fun a b => keyLe (optionKey a) (optionKey b) = true) := by
  induction l with
  | nil => simp [stableInsert]
  | cons y ys ih =>
    rcases List.pairwise_cons.mp h with ⟨hy, hys⟩
    by_cases hk : keyLe (optionKey y) (optionKey x) = true
    · rw [stableInsert, if_pos hk]
      refine List.Pairwise.cons ?_ (ih hys)
      intro z hz
      rcases mem_stableInsert.mp hz with rfl | hz'
      · exact hk
      · exact hy z hz'
    · rw [stableInsert, if_neg hk]
      refine List.Pairwise.cons ?_ h
      intro z hz
      have hxy : keyLe (optionKey x) (optionKey y) = true :=
        (keyLe_total (optionKey y) (optionKey x)).resolve_left hk
      rcases List.mem_cons.mp hz with rfl | hz'
      · exact hxy
      · exact keyLe_trans hxy (hy z hz')

theorem pairwise_stableSort_aux (l acc : List PaymentOption)
    (h : acc.Pairwise (fun a b => keyLe (optionKey a) (optionKey b) = true)) :
    (l.foldl (fun acc x => stableInsert x acc) acc).Pairwise
      (fun a b => keyLe (optionKey a) (optionKey b) = true) := by
  induction l generalizing acc with
  | nil => exact h
  | cons x xs ih => exact ih _ (pairwise_stableInsert x acc h)

theorem pairwise_stableSort (l : List PaymentOption) :
    (stableSort l).Pairwise (fun a b => keyLe (optionKey a) (optionKey b) = true) :=
  pairwise_stableSort_aux l [] List.Pairwise.nil

theorem find?_min_of_pairwise {p : PaymentOption → Bool} {l : List PaymentOption}
    {b : PaymentOption}
    (hp : l.Pairwise (fun a b => keyLe (optionKey a) (optionKey b) = true))
    (hf : l.find? p = some b) :
    ∀ o ∈ l, p o = true → keyLe (optionKey b) (optionKey o) = true := by
  induction l with
  | nil => simp at hf
  | cons y ys ih =>
    rcases List.pairwise_cons.mp hp with ⟨hy, hys⟩
    by_cases hpy : p y = true
    · rw [List.find?_cons_of_pos _ hpy, Option.some.injEq] at hf
      subst hf
      intro o ho hpo
      rcases List.mem_cons.mp ho with rfl | ho'
      · exact keyLe_refl _
      · exact hy o ho'
    · rw [List.find?_cons_of_neg _ hpy] at hf
      intro o ho hpo
      rcases List.mem_cons.mp ho with rfl | ho'
      · exact absurd hpo hpy
      · exact ih hys hf o ho' hpo

/-- C2 (amended): the first affordable entry of `get_payment_options` has the
minimum token-denominated fee amount `required*feePercent/100` among the
affordable entries; this is the quantity the source sorts by, not the USD
total `(required+fee)*rate` the claim states. -/
theorem payment_options_first_affordable_min_fee (w : MockWallet) (amount_usd : ℚ)
    (rate_of : String → ℚ) (b : PaymentOption)
    (hfind : (w.get_payment_options amount_usd rate_of).find?
        (fun o => o.is_affordable) = some b) :
    ∀ o ∈ w.get_payment_options amount_usd rate_of, o.is_affordable = true →
      b.fee_amount ≤ o.fee_amount := by
  intro o ho haff
  have hb : b.is_affordable = true := List.find?_some hfind
  unfold MockWallet.get_payment_options at hfind ho
  have h := find?_min_of_pairwise
    (pairwise_stableSort (w.balances.filterMap (mkPaymentOption amount_usd rate_of)))
    hfind o ho haff
  simp only [keyLe, optionKey, hb, haff, if_true, decide_eq_true_eq] at h
  rcases h with h | ⟨-, h⟩
  · exact absurd h (lt_irrefl _)
  · exact h

/-- C2 witness: on `walletA` at 100 USD the hypotheses of
`payment_options_first_affordable_min_fee` hold with the ETH option first. -/
theorem payment_options_first_affordable_min_fee_witness :
    ((walletA.get_payment_options 100 ratesA).find?
        (fun o => o.is_affordable) = some ethOptA)
    ∧ ethOptA.fee_amount ≤ usdcOptA.fee_amount :=
  ⟨by norm_num [MockWallet.get_payment_options, stableSort, stableInsert, mkPaymentOption,
      List.filterMap_cons, keyLe, optionKey, walletA, ethOptA,
      ratesA_ETH, ratesA_USDC, fees_ETH, fees_USDC, List.find?_cons],
   payment_options_first_affordable_min_fee walletA 100 ratesA ethOptA
     (by norm_num [MockWallet.get_payment_options, stableSort, stableInsert, mkPaymentOption,
        List.filterMap_cons, keyLe, optionKey, walletA, ethOptA,
        ratesA_ETH, ratesA_USDC, fees_ETH, fees_USDC, List.find?_cons])
     usdcOptA
     (by norm_num [MockWallet.get_payment_options, stableSort, stableInsert, mkPaymentOption,
        List.filterMap_cons, keyLe, optionKey, walletA, usdcOptA,
        ratesA_ETH, ratesA_USDC, fees_ETH, fees_USDC])
     (by norm_num [usdcOptA])⟩

/-- C2 counterexample: for `walletA` at 100 USD the first affordable option is
the ETH one with USD total cost 100.5, while the affordable USDC option costs
only 100.1 USD — the first affordable entry does not minimize
`(required+fee)*rate`. -/
theorem payment_options_first_not_usd_minimal :
    ((walletA.get_payment_options 100 ratesA).find?
        (fun o => o.is_affordable) = some ethOptA)
    ∧ usdcOptA ∈ walletA.get_payment_options 100 ratesA
    ∧ usdcOptA.is_affordable = true
    ∧ usdcOptA.total_amount * usdcOptA.rate < ethOptA.total_amount * ethOptA.rate := by
  refine ⟨?_, ?_, by norm_num [usdcOptA], by norm_num [usdcOptA, ethOptA]⟩ <;>
    norm_num [MockWallet.get_payment_options, stableSort, stableInsert, mkPaymentOption,
      List.filterMap_cons, keyLe, optionKey, walletA, ethOptA, usdcOptA,
      ratesA_ETH, ratesA_USDC, fees_ETH, fees_USDC, List.find?_cons]

/-- C3 (amended): `validate_payment` emits `SuboptimalToken` exactly when a best
affordable option exists, its token differs from the chosen one, and the chosen
token's fee percent exceeds the best one's by more than 50 percent relative; in
particular it never fires when the chosen token is the best option's token, and
a strictly dominated choice fires it only past that relative threshold. -/
theorem validate_payment_suboptimal_token_iff (wallet : MockWallet) (token : String)
    (amount amount_usd : ℚ) (rate_of : String → ℚ) (min_bid : Option ℚ) :
    VWarning.SUBOPTIMAL_TOKEN ∈
        (IntentValidator.validate_payment wallet token amount amount_usd rate_of
          min_bid).warnings
    ↔ ∃ best, wallet.get_best_payment_option amount_usd rate_of = some best
        ∧ best.token ≠ token ∧ TOKEN_FEES token > TOKEN_FEES best.token * (3/2) := by
  have hbud : VWarning.SUBOPTIMAL_TOKEN ∉
      (budget_checks wallet.budget_limit wallet.spent_total amount_usd).2 := by
    unfold budget_checks
    cases wallet.budget_limit with
    | none => simp
    | some b =>
      dsimp only
      split_ifs <;> simp
  unfold IntentValidator.validate_payment
  cases hbest : wallet.get_best_payment_option amount_usd rate_of with
  | none => simp [hbest, hbud]
  | some best =>
    by_cases hc : best.token ≠ token ∧ TOKEN_FEES token > TOKEN_FEES best.token * (3/2)
    · simp [hbest, hc, hbud]
    · simp only [hbest, List.mem_append, if_neg hc, List.not_mem_nil, or_false]
      constructor
      · intro hmem
        exact absurd hmem hbud
      · rintro ⟨best', hb', hne', hgt'⟩
        rw [Option.some.injEq] at hb'
        subst hb'
        exact absurd ⟨hne', hgt'⟩ hc

/-- C3 counterexample: with USDC and DAI at the same snapshotted rate, DAI
(fee 0.15 percent) is strictly dominated by the best option USDC (fee 0.1
percent), yet `validate_payment` on DAI emits no `SuboptimalToken` warning,
because 0.15 does not exceed 0.1 by more than 50 percent relative. -/
theorem validate_payment_dominated_no_warning :
    walletB.get_best_payment_option 100 ratesB = some usdcOptA
    ∧ ratesB "DAI" = ratesB "USDC"
    ∧ TOKEN_FEES "DAI" > TOKEN_FEES "USDC"
    ∧ VWarning.SUBOPTIMAL_TOKEN ∉
        (IntentValidator.validate_payment walletB "DAI" 100 100 ratesB none).warnings := by
  have hbest : walletB.get_best_payment_option 100 ratesB = some usdcOptA := by
    norm_num [MockWallet.get_best_payment_option, MockWallet.get_payment_options,
      stableSort, stableInsert, mkPaymentOption, List.filterMap_cons, keyLe, optionKey,
      walletB, usdcOptA, ratesB_USDC, ratesB_DAI, fees_USDC, fees_DAI, List.filter_cons]
  refine ⟨hbest, rfl, by norm_num [fees_DAI, fees_USDC], ?_⟩
  rw [validate_payment_suboptimal_token_iff]
  rintro ⟨best, hb, -, hgt⟩
  rw [hbest, Option.some.injEq] at hb
  subst hb
  rw [fees_DAI, usdcOptA, fees_USDC] at hgt
  norm_num at hgt

/-- C4: `validate_counter_offer` yields the critical `IllogicalCounter` error for
a seller exactly when the counter is below the original amount; for a buyer it
never errors and warns `NoImprovement` exactly when the new amount does not
strictly exceed the original. -/
theorem validate_counter_offer_spec (counter_amount original_amount : ℚ) :
    (VError.ILLOGICAL_COUNTER ∈
        (IntentValidator.validate_counter_offer counter_amount original_amount true).errors
      ↔ counter_amount < original_amount)
    ∧ (IntentValidator.validate_counter_offer counter_amount original_amount false).errors = []
    ∧ (VWarning.NO_IMPROVEMENT ∈
        (IntentValidator.validate_counter_offer counter_amount original_amount
          false).warnings
      ↔ counter_amount ≤ original_amount) := by
  refine ⟨?_, ?_, ?_⟩
  · by_cases h : counter_amount < original_amount <;>
      simp [IntentValidator.validate_counter_offer, h]
  · by_cases h : counter_amount ≤ original_amount <;>
      simp [IntentValidator.validate_counter_offer, h]
  · by_cases h : counter_amount ≤ original_amount <;>
      simp [IntentValidator.validate_counter_offer, h]

/-- C1: `transfer` (with fees included, the default) fails with
`InsufficientBalance` exactly when the source balance is below
`amount*(1+feePercent/100)`; on failure both wallets are returned unchanged; on
success the source balance drops by `amount*(1+feePercent/100)`, the
destination balance grows by `amount`, the transaction is appended to both
histories, and the source's spent-total grows by the USD equivalent of amount
plus fee. -/
theorem transfer_spec (w1 w2 : MockWallet) (token : String) (amount rate : ℚ)
    (memo : Option String) :
    (((MockWallet.transfer w1 w2 token amount rate memo true).2.2
        = Except.error TransferError.insufficientBalance)
      ↔ w1.get_balance token < amount * (1 + TOKEN_FEES token / 100))
    ∧ (w1.get_balance token < amount * (1 + TOKEN_FEES token / 100) →
        (MockWallet.transfer w1 w2 token amount rate memo true).1 = w1
        ∧ (MockWallet.transfer w1 w2 token amount rate memo true).2.1 = w2)
    ∧ (∀ tx, (MockWallet.transfer w1 w2 token amount rate memo true).2.2 = Except.ok tx →
        (MockWallet.transfer w1 w2 token amount rate memo true).1.get_balance token
            = w1.get_balance token - amount * (1 + TOKEN_FEES token / 100)
        ∧ (MockWallet.transfer w1 w2 token amount rate memo true).2.1.get_balance token
            = w2.get_balance token + amount
        ∧ (MockWallet.transfer w1 w2 token amount rate memo true).1.transactions
            = w1.transactions ++ [tx]
        ∧ (MockWallet.transfer w1 w2 token amount rate memo true).2.1.transactions
            = w2.transactions ++ [tx]
        ∧ (MockWallet.transfer w1 w2 token amount rate memo true).1.spent_total
            = w1.spent_total + (amount + amount * (TOKEN_FEES token / 100)) * rate) := by
  have hkey : amount + amount * (TOKEN_FEES token / 100)
      = amount * (1 + TOKEN_FEES token / 100) := by ring
  simp only [MockWallet.transfer, eq_self_iff_true, if_true]
  split_ifs with h
  · have h' : amount + amount * (TOKEN_FEES token / 100) ≤ w1.get_balance token := h
    refine ⟨iff_of_false (by simp) ?_, fun hlt => absurd h' ?_, fun tx htx => ?_⟩
    · rw [← hkey]
      exact not_lt.mpr h'
    · rw [← hkey] at hlt
      exact not_le.mpr hlt
    · dsimp only at htx
      rw [Except.ok.injEq] at htx
      subst htx
      refine ⟨?_, ?_, rfl, rfl, ?_⟩
      · dsimp only [MockWallet.get_balance]
        rw [dictGet_dictSet, ← hkey]
      · dsimp only [MockWallet.get_balance]
        rw [dictGet_dictSet]
      · dsimp only
        ring
  · have h' : w1.get_balance token < amount + amount * (TOKEN_FEES token / 100) :=
      not_le.mp h
    rw [hkey] at h'
    exact ⟨iff_of_true rfl h',
      fun _ => ⟨rfl, rfl⟩,
      fun tx htx => by simp at htx⟩

/-- C1 witness: transferring 1 ETH from `srcW` (10 ETH) to `dstW` at rate 3500
succeeds, and `transfer_spec` instantiates to the concrete success facts. -/
theorem transfer_spec_witness :
    (MockWallet.transfer srcW dstW "ETH" 1 3500 none true).2.2 = Except.ok txC
    ∧ ((MockWallet.transfer srcW dstW "ETH" 1 3500 none true).1.get_balance "ETH"
          = srcW.get_balance "ETH" - 1 * (1 + TOKEN_FEES "ETH" / 100)
        ∧ (MockWallet.transfer srcW dstW "ETH" 1 3500 none true).2.1.get_balance "ETH"
          = dstW.get_balance "ETH" + 1
        ∧ (MockWallet.transfer srcW dstW "ETH" 1 3500 none true).1.transactions
          = srcW.transactions ++ [txC]
        ∧ (MockWallet.transfer srcW dstW "ETH" 1 3500 none true).2.1.transactions
          = dstW.transactions ++ [txC]
        ∧ (MockWallet.transfer srcW dstW "ETH" 1 3500 none true).1.spent_total
          = srcW.spent_total + (1 + 1 * (TOKEN_FEES "ETH" / 100)) * 3500) :=
  ⟨by norm_num [MockWallet.transfer, MockWallet.get_balance, srcW, dstW, txC,
      fees_ETH, dictGet],
   (transfer_spec srcW dstW "ETH" 1 3500 none).2.2 txC
     (by norm_num [MockWallet.transfer, MockWallet.get_balance, srcW, dstW, txC,
        fees_ETH, dictGet])⟩

/-- C10: on a successful fee-inclusive transfer the combined balance of the two
wallets in the transferred token drops by exactly the fee
`amount*(feePercent/100)`: the fee is debited from the source and credited to
no wallet. -/
theorem transfer_fee_burned (w1 w2 : MockWallet) (token : String) (amount rate : ℚ)
    (memo : Option String) (tx : Transaction)
    (h : (MockWallet.transfer w1 w2 token amount rate memo true).2.2 = Except.ok tx) :
    (MockWallet.transfer w1 w2 token amount rate memo true).1.get_balance token
      + (MockWallet.transfer w1 w2 token amount rate memo true).2.1.get_balance token
      = w1.get_balance token + w2.get_balance token
        - amount * (TOKEN_FEES token / 100) := by
  simp only [MockWallet.transfer, eq_self_iff_true, if_true] at h ⊢
  split_ifs at h ⊢ with hc
  dsimp only [MockWallet.get_balance]
  rw [dictGet_dictSet, dictGet_dictSet]
  ring

/-- C10 witness: the concrete 1 ETH transfer from `srcW` to `dstW` burns the
0.5 percent fee: 10 + 0 becomes (10 - 201/200) + 1. -/
theorem transfer_fee_burned_witness :
    (MockWallet.transfer srcW dstW "ETH" 1 3500 none true).2.2 = Except.ok txC
    ∧ (MockWallet.transfer srcW dstW "ETH" 1 3500 none true).1.get_balance "ETH"
        + (MockWallet.transfer srcW dstW "ETH" 1 3500 none true).2.1.get_balance "ETH"
        = srcW.get_balance "ETH" + dstW.get_balance "ETH" - 1 * (TOKEN_FEES "ETH" / 100) :=
  ⟨by norm_num [MockWallet.transfer, MockWallet.get_balance, srcW, dstW, txC,
      fees_ETH, dictGet],
   transfer_fee_burned srcW dstW "ETH" 1 3500 none txC
     (by norm_num [MockWallet.transfer, MockWallet.get_balance, srcW, dstW, txC,
        fees_ETH, dictGet])⟩

/-! Helper lemmas for the tournament embedding. -/

namespace Tournament

theorem find?_map_of_preserve (l : List PlayerState) (q : String)
    (g : PlayerState → PlayerState) (hg : ∀ p, (g p).player_id = p.player_id) :
    (l.map g).find? (fun p => p.player_id == q)
      = (l.find? (fun p => p.player_id == q)).map g := by
  induction l with
  | nil => simp
  | cons a as ih =>
    rw [List.map_cons, List.find?_cons, List.find?_cons, hg a]
    by_cases h : (a.player_id == q) = true
    · simp [h]
    · simp only [Bool.not_eq_true] at h
      simp [h, ih]

theorem updatePlayer_preserves (st : GameState) (pid : String)
    (f : PlayerState → PlayerState) (hf : ∀ p, (f p).player_id = p.player_id)
    (p : PlayerState) :
    ((if p.player_id == pid then f p else p).player_id) = p.player_id := by
  by_cases h : (p.player_id == pid) = true
  · rw [if_pos h, hf]
  · rw [if_neg h]

theorem lookupPlayer_update_eq (st : GameState) (pid : String)
    (f : PlayerState → PlayerState) (hf : ∀ p, (f p).player_id = p.player_id)
    (p : PlayerState) (hp : lookupPlayer st pid = some p) :
    lookupPlayer (updatePlayer st pid f) pid = some (f p) := by
  unfold lookupPlayer at hp
  unfold lookupPlayer updatePlayer
  rw [find?_map_of_preserve _ _ _ (updatePlayer_preserves st pid f hf), hp,
    Option.map_some']
  have hpq := List.find?_some hp
  rw [if_pos hpq]

theorem lookupPlayer_update_ne (st : GameState) (pid qid : String)
    (f : PlayerState → PlayerState) (hf : ∀ p, (f p).player_id = p.player_id)
    (hne : qid ≠ pid) :
    lookupPlayer (updatePlayer st pid f) qid = lookupPlayer st qid := by
  unfold lookupPlayer updatePlayer
  rw [find?_map_of_preserve _ _ _ (updatePlayer_preserves st pid f hf)]
  cases hq : st.players.find? (fun p => p.player_id == qid) with
  | none => rfl
  | some p =>
    have hpq := List.find?_some hq
    have hpq' : p.player_id = qid := by simpa using hpq
    rw [Option.map_some', if_neg (by simp [hpq', hne])]

theorem lookupPlayer_check_bankruptcies (st : GameState) (pid : String) :
    lookupPlayer (check_bankruptcies st) pid
      = (lookupPlayer st pid).map (fun p =>
          if p.is_active ∧ p.cash ≤ 0 then
            { p with is_bankrupt := true, is_active := false,
                     bankrupt_round := (st.current_round : ℤ) }
          else p) := by
  unfold lookupPlayer check_bankruptcies
  exact find?_map_of_preserve _ _ _ (fun p => by split_ifs <;> rfl)

theorem firstMaxBid_aux (l : List Bid) :
    ∀ (acc : Option Bid) (m : Bid),
      l.foldl
          (fun acc b =>
            match acc with
            | none => some b
            | some a => if b.amount > a.amount then some b else acc)
          acc = some m →
      (acc = some m ∨ m ∈ l) ∧ (∀ b ∈ l, b.amount ≤ m.amount)
        ∧ (∀ a, acc = some a → a.amount ≤ m.amount) := by
  induction l with
  | nil =>
    intro acc m h
    simp only [List.foldl_nil] at h
    exact ⟨Or.inl h, by simp, fun a ha => by rw [ha] at h; injection h with h'; rw [h']⟩
  | cons b bs ih =>
    intro acc m h
    rw [List.foldl_cons] at h
    obtain ⟨hmem, hle, hacc⟩ := ih _ m h
    have hb_le : b.amount ≤ m.amount := by
      cases acc with
      | none => exact hacc b rfl
      | some a =>
        by_cases hba : b.amount > a.amount
        · exact hacc b (by simp [hba])
        · exact le_trans (not_lt.mp hba) (hacc a (by simp [hba]))
    refine ⟨?_, ?_, ?_⟩
    · rcases hmem with hstep | hin
      · cases acc with
        | none =>
          simp only at hstep
          injection hstep with h'
          exact Or.inr (h' ▸ List.mem_cons_self b bs)
        | some a =>
          by_cases hba : b.amount > a.amount
          · simp only [hba, if_pos] at hstep
            injection hstep with h'
            exact Or.inr (h' ▸ List.mem_cons_self b bs)
          · simp only [if_neg hba] at hstep
            exact Or.inl hstep
      · exact Or.inr (List.mem_cons_of_mem b hin)
    · intro c hc
      rcases List.mem_cons.mp hc with rfl | hc'
      · exact hb_le
      · exact hle c hc'
    · intro a ha
      subst ha
      by_cases hba : b.amount > a.amount
      · exact le_trans (le_of_lt hba) hb_le
      · exact hacc a (by simp [hba])

theorem firstMaxBid_spec (l : List Bid) (m : Bid) (h : firstMaxBid l = some m) :
    m ∈ l ∧ ∀ b ∈ l, b.amount ≤ m.amount := by
  obtain ⟨hmem, hle, -⟩ := firstMaxBid_aux l none m h
  exact ⟨hmem.resolve_left (by simp), hle⟩

theorem validate_bid_ne_nil_iff (p : PlayerState) (amount : ℚ)
    (item : TournamentItem) :
    validate_bid p amount item ≠ []
      ↔ (amount > p.cash ∨ amount > item.estimate_high * (3/2)) := by
  unfold validate_bid
  split_ifs with h1 h2 <;> simp [h1, *]

theorem budget_exceed_mem_validate_bid (p : PlayerState) (amount : ℚ)
    (item : TournamentItem) (h : amount > p.cash) :
    IntentErrorType.BUDGET_EXCEED ∈ validate_bid p amount item := by
  unfold validate_bid
  split_ifs with h1 h2 <;> simp_all

theorem overpay_mem_validate_bid (p : PlayerState) (amount : ℚ)
    (item : TournamentItem) (h : amount > item.estimate_high * (3/2)) :
    IntentErrorType.OVERPAY ∈ validate_bid p amount item := by
  unfold validate_bid
  split_ifs with h1 h2 <;> simp_all

end Tournament

namespace Tournament

theorem getLast?_map {α β : Type} (f : α → β) (l : List α) :
    (l.map f).getLast? = (l.getLast?).map f := by
  induction l with
  | nil => rfl
  | cons a as ih =>
    cases as with
    | nil => rfl
    | cons b bs =>
      rw [List.map_cons, List.map_cons, List.getLast?_cons_cons, ← List.map_cons, ih,
        List.getLast?_cons_cons]

theorem update_bid_results_getLast? (st : GameState) (b : Bid)
    (h : st.current_bids.getLast? = some b) :
    ∃ b', (update_bid_results st).current_bids.getLast? = some b'
      ∧ b'.player_id = b.player_id ∧ b'.amount = b.amount
      ∧ b'.intent_errors = b.intent_errors
      ∧ (b'.result = BidResult.INVALID ↔ b.result = BidResult.INVALID) := by
  unfold update_bid_results
  cases hfm : firstMaxBid (st.current_bids.filter
      (fun b => b.result ≠ BidResult.INVALID)) with
  | none =>
    simp only [hfm]
    exact ⟨b, h, rfl, rfl, rfl, Iff.rfl⟩
  | some mx =>
    simp only [hfm]
    refine ⟨_, by rw [getLast?_map, h, Option.map_some'], ?_, ?_, ?_, ?_⟩
    all_goals
      (rcases Decidable.em (b.result = BidResult.INVALID) with hinv | hinv <;>
        rcases Decidable.em (b.bid_id = mx.bid_id) with hid | hid <;>
        simp [hinv, hid])

theorem update_bid_results_exists (st : GameState) (b : Bid)
    (h : st.current_bids.getLast? = some b) (P : Bid → Prop)
    (hP : ∀ b', b'.player_id = b.player_id → b'.amount = b.amount →
        b'.intent_errors = b.intent_errors →
        (b'.result = BidResult.INVALID ↔ b.result = BidResult.INVALID) → P b') :
    ∃ b', (update_bid_results st).current_bids.getLast? = some b' ∧ P b' := by
  obtain ⟨b', h1, h2, h3, h4, h5⟩ := update_bid_results_getLast? st b h
  exact ⟨b', h1, hP b' h2 h3 h4 h5⟩

theorem submit_bid_records (st : GameState) (pid : String) (amount : ℚ)
    (reasoning : String) (p : PlayerState) (item : TournamentItem)
    (hp : lookupPlayer st pid = some p) (hact : p.is_active = true)
    (hitem : st.current_item = some item) :
    ∃ st' rb, submit_bid st pid amount reasoning = Except.ok (st', rb)
      ∧ ∃ b, st'.current_bids.getLast? = some b
        ∧ b.player_id = pid ∧ b.amount = amount
        ∧ b.intent_errors = validate_bid p amount item
        ∧ (b.result = BidResult.INVALID
            ↔ (amount > p.cash ∨ amount > item.estimate_high * (3/2)))
        ∧ (amount > p.cash → IntentErrorType.BUDGET_EXCEED ∈ b.intent_errors)
        ∧ (amount > item.estimate_high * (3/2) →
            IntentErrorType.OVERPAY ∈ b.intent_errors) := by
  unfold submit_bid
  simp only [hp, hitem]
  rw [if_neg (by simp [hact])]
  refine ⟨_, _, rfl, ?_⟩
  refine update_bid_results_exists _ _ (List.getLast?_concat _) _ ?_
  intro b' hpid hamt herr hres
  refine ⟨hpid, hamt, herr, ?_, ?_, ?_⟩
  · rw [hres, ← validate_bid_ne_nil_iff p amount item]
    by_cases he : validate_bid p amount item = [] <;> simp [he]
  · intro hc
    rw [herr]
    exact budget_exceed_mem_validate_bid p amount item hc
  · intro hc
    rw [herr]
    exact overpay_mem_validate_bid p amount item hc

theorem lookupPlayer_set_round_results (st : GameState) (rr : List RoundResult)
    (pid : String) :
    lookupPlayer { st with round_results := rr } pid = lookupPlayer st pid := rfl

theorem end_auction_round_settles (st : GameState) (item : TournamentItem)
    (mb : Bid) (wp : PlayerState)
    (hitem : st.current_item = some item)
    (hfm : firstMaxBid (st.current_bids.filter
        (fun b => b.result ≠ BidResult.INVALID)) = some mb)
    (hwp : lookupPlayer st mb.player_id = some wp) :
    ∃ st' res, end_auction_round st = some (st', res)
      ∧ res.winner = some wp.name ∧ res.winning_bid = some mb.amount
      ∧ res.all_bids = st.current_bids
      ∧ mb.result ≠ BidResult.INVALID
      ∧ (∀ b ∈ st.current_bids, b.result ≠ BidResult.INVALID → b.amount ≤ mb.amount)
      ∧ ∃ wp', lookupPlayer st' mb.player_id = some wp'
          ∧ wp'.cash = wp.cash - mb.amount := by
  obtain ⟨hmb_mem, hmb_max⟩ := firstMaxBid_spec _ _ hfm
  have hmb_valid : mb.result ≠ BidResult.INVALID := by
    have h2 := (List.mem_filter.mp hmb_mem).2
    simpa using h2
  unfold end_auction_round
  simp only [hitem, hfm, hwp]
  refine ⟨_, _, rfl, rfl, rfl, rfl, hmb_valid, ?_, ?_⟩
  · intro b hb hbv
    exact hmb_max b (List.mem_filter.mpr ⟨hb, by simpa using hbv⟩)
  · have h1 := lookupPlayer_update_eq st mb.player_id
      (fun p =>
        { p with cash := p.cash - mb.amount,
                 total_spent := p.total_spent + mb.amount,
                 items := p.items ++ [item],
                 item_costs := Function.update p.item_costs item.item_id
                   (some mb.amount),
                 total_items_won := p.total_items_won + 1 })
      (fun p => rfl) wp hwp
    have h2 := lookupPlayer_check_bankruptcies
      (updatePlayer st mb.player_id
        (fun p =>
          { p with cash := p.cash - mb.amount,
                   total_spent := p.total_spent + mb.amount,
                   items := p.items ++ [item],
                   item_costs := Function.update p.item_costs item.item_id
                     (some mb.amount),
                   total_items_won := p.total_items_won + 1 }))
      mb.player_id
    rw [h1, Option.map_some'] at h2
    exact ⟨_, h2, by split_ifs <;> rfl⟩

end Tournament

/-- C7: (a) a submitted bid over the player's cash or over 150 percent of the
estimate upper bound is recorded in the round's bid list together with its
violations and marked INVALID; (b) `end_auction_round` picks the first highest
bid among the non-INVALID ones — so an invalid bid is excluded from winner
selection even if numerically highest — and debits exactly the winning amount
from the winner's cash when the round settles. -/
theorem tournament_bid_validation_and_settlement :
    (∀ (st : Tournament.GameState) (pid : String) (amount : ℚ) (reasoning : String)
        (p : Tournament.PlayerState) (item : Tournament.TournamentItem),
      Tournament.lookupPlayer st pid = some p → p.is_active = true →
      st.current_item = some item →
      ∃ st' rb, Tournament.submit_bid st pid amount reasoning = Except.ok (st', rb)
        ∧ ∃ b, st'.current_bids.getLast? = some b
          ∧ b.player_id = pid ∧ b.amount = amount
          ∧ b.intent_errors = Tournament.validate_bid p amount item
          ∧ (b.result = Tournament.BidResult.INVALID
              ↔ (amount > p.cash ∨ amount > item.estimate_high * (3/2)))
          ∧ (amount > p.cash →
              Tournament.IntentErrorType.BUDGET_EXCEED ∈ b.intent_errors)
          ∧ (amount > item.estimate_high * (3/2) →
              Tournament.IntentErrorType.OVERPAY ∈ b.intent_errors))
    ∧ (∀ (st : Tournament.GameState) (item : Tournament.TournamentItem)
        (mb : Tournament.Bid) (wp : Tournament.PlayerState),
      st.current_item = some item →
      Tournament.firstMaxBid (st.current_bids.filter
          (fun b => b.result ≠ Tournament.BidResult.INVALID)) = some mb →
      Tournament.lookupPlayer st mb.player_id = some wp →
      ∃ st' res, Tournament.end_auction_round st = some (st', res)
        ∧ res.winner = some wp.name ∧ res.winning_bid = some mb.amount
        ∧ res.all_bids = st.current_bids
        ∧ mb.result ≠ Tournament.BidResult.INVALID
        ∧ (∀ b ∈ st.current_bids, b.result ≠ Tournament.BidResult.INVALID →
            b.amount ≤ mb.amount)
        ∧ ∃ wp', Tournament.lookupPlayer st' mb.player_id = some wp'
            ∧ wp'.cash = wp.cash - mb.amount) :=
  ⟨fun st pid amount reasoning p item hp hact hitem =>
      Tournament.submit_bid_records st pid amount reasoning p item hp hact hitem,
   fun st item mb wp hitem hfm hwp =>
      Tournament.end_auction_round_settles st item mb wp hitem hfm hwp⟩

/-- C7 witness: in `stT0` the 50-cash player's bid of 80 is recorded with a
`BUDGET_EXCEED` violation and marked INVALID; in `stT1` (invalid 80 bid and
valid 60 bid) the round settles on the valid 60 bid and debits 60 from Bob. -/
theorem tournament_bid_validation_and_settlement_witness :
    (∃ st' rb, Tournament.submit_bid Tournament.stT0 "p1" 80 "" = Except.ok (st', rb)
      ∧ ∃ b, st'.current_bids.getLast? = some b
        ∧ b.player_id = "p1" ∧ b.amount = 80
        ∧ b.intent_errors = Tournament.validate_bid Tournament.playerP1 80 Tournament.itemT
        ∧ (b.result = Tournament.BidResult.INVALID
            ↔ (80 > Tournament.playerP1.cash
              ∨ 80 > Tournament.itemT.estimate_high * (3/2)))
        ∧ (80 > Tournament.playerP1.cash →
            Tournament.IntentErrorType.BUDGET_EXCEED ∈ b.intent_errors)
        ∧ (80 > Tournament.itemT.estimate_high * (3/2) →
            Tournament.IntentErrorType.OVERPAY ∈ b.intent_errors))
    ∧ (∃ st' res, Tournament.end_auction_round Tournament.stT1 = some (st', res)
      ∧ res.winner = some Tournament.playerP2.name
      ∧ res.winning_bid = some Tournament.bidValid.amount
      ∧ res.all_bids = Tournament.stT1.current_bids
      ∧ Tournament.bidValid.result ≠ Tournament.BidResult.INVALID
      ∧ (∀ b ∈ Tournament.stT1.current_bids,
          b.result ≠ Tournament.BidResult.INVALID →
          b.amount ≤ Tournament.bidValid.amount)
      ∧ ∃ wp', Tournament.lookupPlayer st' Tournament.bidValid.player_id = some wp'
          ∧ wp'.cash = Tournament.playerP2.cash - Tournament.bidValid.amount) :=
  ⟨tournament_bid_validation_and_settlement.1 Tournament.stT0 "p1" 80 ""
      Tournament.playerP1 Tournament.itemT
      (by simp [Tournament.lookupPlayer, Tournament.stT0, Tournament.playerP1,
          Tournament.playerP2, List.find?_cons])
      rfl rfl,
   tournament_bid_validation_and_settlement.2 Tournament.stT1 Tournament.itemT
      Tournament.bidValid Tournament.playerP2 rfl
      (by simp [Tournament.firstMaxBid, Tournament.stT1, Tournament.stT0,
          Tournament.bidInvalid, Tournament.bidValid, List.filter_cons])
      (by simp [Tournament.lookupPlayer, Tournament.stT1, Tournament.stT0,
          Tournament.playerP1, Tournament.playerP2, Tournament.bidValid,
          List.find?_cons])⟩

namespace Tournament

theorem lookup_updatePlayer_map_proj {β : Type} (proj : PlayerState → β)
    (st : GameState) (pid qid : String) (f : PlayerState → PlayerState)
    (hid : ∀ p, (f p).player_id = p.player_id)
    (hproj : ∀ p, proj (f p) = proj p) :
    (lookupPlayer (updatePlayer st pid f) qid).map proj
      = (lookupPlayer st qid).map proj := by
  unfold lookupPlayer updatePlayer
  rw [find?_map_of_preserve _ _ _ (updatePlayer_preserves st pid f hid)]
  cases st.players.find? (fun p => p.player_id == qid) with
  | none => rfl
  | some p =>
    rw [Option.map_some', Option.map_some', Option.map_some']
    by_cases h : (p.player_id == pid) = true
    · rw [if_pos h, hproj]
    · rw [if_neg h]

theorem lookup_moveItem_cash (st : GameState) (a b : String) (i : TournamentItem)
    (pid : String) :
    (lookupPlayer (moveItem st a b i) pid).map PlayerState.cash
      = (lookupPlayer st pid).map PlayerState.cash := by
  simp only [moveItem]
  rw [lookup_updatePlayer_map_proj PlayerState.cash,
    lookup_updatePlayer_map_proj PlayerState.cash]
  all_goals exact fun p => rfl

theorem lookupPlayer_transferCash_payer (st : GameState) (payer payee : String)
    (amt : ℚ) (q : PlayerState) (hq : lookupPlayer st payer = some q)
    (hne : payer ≠ payee) :
    lookupPlayer (transferCash st payer payee amt) payer
      = some { q with cash := q.cash - amt } := by
  simp only [transferCash]
  rw [lookupPlayer_update_ne]
  · exact lookupPlayer_update_eq st payer (fun p => { p with cash := p.cash - amt })
      (fun p => rfl) q hq
  · exact fun p => rfl
  · exact hne

theorem lookupPlayer_transferCash_payee (st : GameState) (payer payee : String)
    (amt : ℚ) (q : PlayerState) (hq : lookupPlayer st payee = some q)
    (hne : payee ≠ payer) :
    lookupPlayer (transferCash st payer payee amt) payee
      = some { q with cash := q.cash + amt } := by
  simp only [transferCash]
  have h1 : lookupPlayer (updatePlayer st payer
      (fun p => { p with cash := p.cash - amt })) payee = some q := by
    rw [lookupPlayer_update_ne]
    · exact hq
    · exact fun p => rfl
    · exact hne
  exact lookupPlayer_update_eq _ payee (fun p => { p with cash := p.cash + amt })
    (fun p => rfl) q h1

theorem item_check_false (items : List TournamentItem) (oi : Option String) :
    (match (match oi with
        | some oid => items.find? (fun i => i.item_id == oid)
        | none => none : Option TournamentItem) with
      | some i => !(items.contains i)
      | none => false) = false := by
  cases oi with
  | none => rfl
  | some oid =>
    cases hf : items.find? (fun i => i.item_id == oid) with
    | none => simp [hf]
    | some i =>
      have hmem := List.mem_of_find?_eq_some hf
      simp [hf, hmem]

theorem cash_map_after_items (st : GameState) (oi ri : Option TournamentItem)
    (fid tid pid : String) :
    (lookupPlayer
        (match ri with
          | some i => moveItem
              (match oi with
                | some i' => moveItem st fid tid i'
                | none => st) tid fid i
          | none =>
            match oi with
            | some i' => moveItem st fid tid i'
            | none => st) pid).map PlayerState.cash
      = (lookupPlayer st pid).map PlayerState.cash := by
  cases oi <;> cases ri <;> simp [lookup_moveItem_cash]

theorem lookup_guarded_transfer_payer (st : GameState) (payer payee : String)
    (amt : ℚ) (q : PlayerState) (hq : lookupPlayer st payer = some q)
    (hne : payer ≠ payee) (h0 : 0 ≤ amt) :
    ∃ q', lookupPlayer (if amt > 0 then transferCash st payer payee amt else st)
          payer = some q'
      ∧ q'.cash = q.cash - amt := by
  by_cases h : amt > 0
  · rw [if_pos h, lookupPlayer_transferCash_payer st payer payee amt q hq hne]
    exact ⟨_, rfl, rfl⟩
  · rw [if_neg h]
    have h00 : amt = 0 := le_antisymm (not_lt.mp h) h0
    exact ⟨q, hq, by rw [h00, sub_zero]⟩

theorem lookup_guarded_transfer_payee (st : GameState) (payer payee : String)
    (amt : ℚ) (q : PlayerState) (hq : lookupPlayer st payee = some q)
    (hne : payee ≠ payer) (h0 : 0 ≤ amt) :
    ∃ q', lookupPlayer (if amt > 0 then transferCash st payer payee amt else st)
          payee = some q'
      ∧ q'.cash = q.cash + amt := by
  by_cases h : amt > 0
  · rw [if_pos h, lookupPlayer_transferCash_payee st payer payee amt q hq hne]
    exact ⟨_, rfl, rfl⟩
  · rw [if_neg h]
    have h00 : amt = 0 := le_antisymm (not_lt.mp h) h0
    exact ⟨q, hq, by rw [h00, add_zero]⟩

/-- C8 (amended): with both players present and distinct and nonnegative cash
amounts, `execute_trade` returns `False` with the state unchanged exactly when
a cash amount exceeds its payer's cash.  Item ownership is not among the
effective preconditions: the in-code `not in` checks test items that were just
found in the owner's inventory, so an offered or requested item id that is
absent is silently skipped rather than failing the trade.  On success the two
cash amounts transfer between the players together. -/
theorem execute_trade_spec (st : GameState) (details : TradeDetails)
    (fid tid : String) (fp tp : PlayerState)
    (hf : lookupPlayer st fid = some fp) (ht : lookupPlayer st tid = some tp)
    (hne : fid ≠ tid) (hco : 0 ≤ details.cash_offer)
    (hcr : 0 ≤ details.cash_request) :
    (execute_trade st details fid tid = (st, false)
      ↔ (details.cash_offer > fp.cash ∨ details.cash_request > tp.cash))
    ∧ ((execute_trade st details fid tid).2 = true →
        (∃ fp', lookupPlayer (execute_trade st details fid tid).1 fid = some fp'
            ∧ fp'.cash = fp.cash - details.cash_offer + details.cash_request)
        ∧ (∃ tp', lookupPlayer (execute_trade st details fid tid).1 tid = some tp'
            ∧ tp'.cash = tp.cash + details.cash_offer - details.cash_request)) := by
  unfold execute_trade
  simp only [hf, ht, item_check_false, Bool.false_eq_true, if_false]
  by_cases h1 : details.cash_offer > fp.cash
  · rw [if_pos h1]
    refine ⟨iff_of_true rfl (Or.inl h1), ?_⟩
    intro h
    simp at h
  · rw [if_neg h1]
    by_cases h2 : details.cash_request > tp.cash
    · rw [if_pos h2]
      refine ⟨iff_of_true rfl (Or.inr h2), ?_⟩
      intro h
      simp at h
    · rw [if_neg h2]
      constructor
      · constructor
        · intro heq
          have hsnd := congrArg Prod.snd heq
          simp at hsnd
        · intro h
          rcases h with h | h
          · exact absurd h h1
          · exact absurd h h2
      · intro _
        have hfc := cash_map_after_items st
          (match details.offer_item_id with
            | some oid => fp.items.find? (fun i => i.item_id == oid)
            | none => none)
          (match details.request_item_id with
            | some rid => tp.items.find? (fun i => i.item_id == rid)
            | none => none) fid tid fid
        rw [hf, Option.map_some'] at hfc
        obtain ⟨fp2, hfp2, hfp2c⟩ := Option.map_eq_some'.mp hfc
        have htc := cash_map_after_items st
          (match details.offer_item_id with
            | some oid => fp.items.find? (fun i => i.item_id == oid)
            | none => none)
          (match details.request_item_id with
            | some rid => tp.items.find? (fun i => i.item_id == rid)
            | none => none) fid tid tid
        rw [ht, Option.map_some'] at htc
        obtain ⟨tp2, htp2, htp2c⟩ := Option.map_eq_some'.mp htc
        obtain ⟨fp3, hfp3, hfp3c⟩ :=
          lookup_guarded_transfer_payer _ fid tid details.cash_offer fp2 hfp2 hne hco
        obtain ⟨tp3, htp3, htp3c⟩ :=
          lookup_guarded_transfer_payee _ fid tid details.cash_offer tp2 htp2
            (Ne.symm hne) hco
        obtain ⟨fp4, hfp4, hfp4c⟩ :=
          lookup_guarded_transfer_payee _ tid fid details.cash_request fp3 hfp3 hne hcr
        obtain ⟨tp4, htp4, htp4c⟩ :=
          lookup_guarded_transfer_payer _ tid fid details.cash_request tp3 htp3
            (Ne.symm hne) hcr
        refine ⟨⟨fp4, hfp4, ?_⟩, ⟨tp4, htp4, ?_⟩⟩
        · rw [hfp4c, hfp3c, hfp2c]
        · rw [htp4c, htp3c, htp2c]

/-- Witness for the C8 theorem at the ghost-item trade state. -/
theorem execute_trade_spec_witness :
    (execute_trade stTrade tdGhost "p1" "p2" = (stTrade, false)
      ↔ (tdGhost.cash_offer > pTrade1.cash ∨ tdGhost.cash_request > pTrade2.cash))
    ∧ ((execute_trade stTrade tdGhost "p1" "p2").2 = true →
        (∃ fp', lookupPlayer (execute_trade stTrade tdGhost "p1" "p2").1 "p1" = some fp'
            ∧ fp'.cash = pTrade1.cash - tdGhost.cash_offer + tdGhost.cash_request)
        ∧ (∃ tp', lookupPlayer (execute_trade stTrade tdGhost "p1" "p2").1 "p2" = some tp'
            ∧ tp'.cash = pTrade2.cash + tdGhost.cash_offer - tdGhost.cash_request)) :=
  execute_trade_spec stTrade tdGhost "p1" "p2" pTrade1 pTrade2
    (by simp [lookupPlayer, stTrade, pTrade1, List.find?_cons])
    (by simp [lookupPlayer, stTrade, pTrade1, pTrade2, List.find?_cons])
    (by decide)
    (by norm_num [tdGhost])
    (by norm_num [tdGhost])

/-- C8 counterexample: `tdGhost` offers item id X, which `pTrade1` does not
own; `execute_trade` nonetheless returns `True` and transfers the 5 cash to
`pTrade2`, refuting that every offered item must be owned by the offerer and
that a violated precondition leaves the state unchanged. -/
theorem execute_trade_ghost_item :
    (∀ i ∈ pTrade1.items, i.item_id ≠ "X")
    ∧ (execute_trade stTrade tdGhost "p1" "p2").2 = true
    ∧ (lookupPlayer (execute_trade stTrade tdGhost "p1" "p2").1 "p2").map
        PlayerState.cash = some 5 := by
  refine ⟨by simp [pTrade1], ?_, ?_⟩
  · simp [execute_trade, lookupPlayer, stTrade, tdGhost, pTrade1, pTrade2,
      List.find?_cons, transferCash, updatePlayer]
    norm_num
  · simp [execute_trade, lookupPlayer, stTrade, tdGhost, pTrade1, pTrade2,
      List.find?_cons, transferCash, updatePlayer]
    norm_num [List.find?_cons]
    simp

theorem lookupPlayer_moveItem_src (st : GameState) (src dst : String)
    (i : TournamentItem) (p : PlayerState)
    (hp : lookupPlayer st src = some p) (hne : src ≠ dst) :
    lookupPlayer (moveItem st src dst i) src
      = some { p with
          items := p.items.erase i,
          item_costs := match p.item_costs i.item_id with
            | some _ => Function.update p.item_costs i.item_id none
            | none => p.item_costs } := by
  simp only [moveItem, hp]
  rw [lookupPlayer_update_ne]
  · refine lookupPlayer_update_eq st src _ ?_ p hp
    exact fun r => rfl
  · exact fun r => rfl
  · exact hne

theorem lookupPlayer_moveItem_dst (st : GameState) (src dst : String)
    (i : TournamentItem) (p q : PlayerState)
    (hp : lookupPlayer st src = some p) (hq : lookupPlayer st dst = some q)
    (hne : dst ≠ src) :
    lookupPlayer (moveItem st src dst i) dst
      = some { q with
          items := q.items ++ [i],
          item_costs := match p.item_costs i.item_id with
            | some c => Function.update q.item_costs i.item_id (some c)
            | none => q.item_costs } := by
  simp only [moveItem, hp]
  refine lookupPlayer_update_eq _ dst _ ?_ q ?_
  · exact fun r => rfl
  · rw [lookupPlayer_update_ne]
    · exact hq
    · exact fun r => rfl
    · exact hne

theorem lookup_guarded_transfer_payer' (st : GameState) (payer payee : String)
    (amt : ℚ) (q : PlayerState) (hq : lookupPlayer st payer = some q)
    (hne : payer ≠ payee) (h0 : 0 ≤ amt) :
    lookupPlayer (if amt > 0 then transferCash st payer payee amt else st) payer
      = some { q with cash := q.cash - amt } := by
  by_cases h : amt > 0
  · rw [if_pos h]
    exact lookupPlayer_transferCash_payer st payer payee amt q hq hne
  · rw [if_neg h]
    have h00 : amt = 0 := le_antisymm (not_lt.mp h) h0
    rw [h00, sub_zero]
    exact hq

theorem lookup_guarded_transfer_payee' (st : GameState) (payer payee : String)
    (amt : ℚ) (q : PlayerState) (hq : lookupPlayer st payee = some q)
    (hne : payee ≠ payer) (h0 : 0 ≤ amt) :
    lookupPlayer (if amt > 0 then transferCash st payer payee amt else st) payee
      = some { q with cash := q.cash + amt } := by
  by_cases h : amt > 0
  · rw [if_pos h]
    exact lookupPlayer_transferCash_payee st payer payee amt q hq hne
  · rw [if_neg h]
    have h00 : amt = 0 := le_antisymm (not_lt.mp h) h0
    rw [h00, add_zero]
    exact hq

/-- Full characterisation of a successful offer-only trade (an item with id `x`
offered by `fid`, no requested item, cash amounts `a` toward `tid` and `b`
back): the item moves from the offerer's inventory (erased there, appended to
the counterparty's), its recorded cost moves with it, and the cash amounts
transfer. -/
theorem execute_trade_offer_only (st : GameState) (fid tid x : String) (a b : ℚ)
    (fp tp : PlayerState) (X : TournamentItem)
    (hf : lookupPlayer st fid = some fp) (ht : lookupPlayer st tid = some tp)
    (hne : fid ≠ tid)
    (hx : fp.items.find? (fun i => i.item_id == x) = some X)
    (ha : ¬ a > fp.cash) (hb : ¬ b > tp.cash) (h0a : 0 ≤ a) (h0b : 0 ≤ b) :
    (execute_trade st ⟨some x, none, a, b⟩ fid tid).2 = true
    ∧ lookupPlayer (execute_trade st ⟨some x, none, a, b⟩ fid tid).1 fid
      = some { fp with
          cash := fp.cash - a + b,
          items := fp.items.erase X,
          item_costs := match fp.item_costs X.item_id with
            | some _ => Function.update fp.item_costs X.item_id none
            | none => fp.item_costs }
    ∧ lookupPlayer (execute_trade st ⟨some x, none, a, b⟩ fid tid).1 tid
      = some { tp with
          cash := tp.cash + a - b,
          items := tp.items ++ [X],
          item_costs := match fp.item_costs X.item_id with
            | some c => Function.update tp.item_costs X.item_id (some c)
            | none => tp.item_costs } := by
  have hcon : fp.items.contains X = true := by
    simpa using List.mem_of_find?_eq_some hx
  unfold execute_trade
  simp only [hf, ht, hx, hcon, Bool.not_true, Bool.false_eq_true, if_false]
  rw [if_neg ha, if_neg hb]
  refine ⟨rfl, ?_, ?_⟩
  · have h1 := lookupPlayer_moveItem_src st fid tid X fp hf hne
    have h2 := lookup_guarded_transfer_payer' (moveItem st fid tid X) fid tid a
      _ h1 hne h0a
    exact lookup_guarded_transfer_payee' _ tid fid b _ h2 hne h0b
  · have h1 := lookupPlayer_moveItem_dst st fid tid X fp tp hf ht (Ne.symm hne)
    have h2 := lookup_guarded_transfer_payee' (moveItem st fid tid X) fid tid a
      _ h1 (Ne.symm hne) h0a
    exact lookup_guarded_transfer_payer' _ tid fid b _ h2 (Ne.symm hne) h0b

/-- C9 (amended): a two-trade round trip of an item between two players, with
cash amounts netting to zero (`a + d = b + c`), restores both players' cash
and item-cost records exactly and the counterparty's inventory exactly; the
offerer's inventory is restored only as a multiset — the returned item is
appended at the end (`erase X ++ [X]`), a permutation of, but in general not
equal to, the original list. -/
theorem trade_round_trip (st : GameState) (fid tid x : String) (a b c d c0 : ℚ)
    (fp tp : PlayerState) (X : TournamentItem)
    (hf : lookupPlayer st fid = some fp) (ht : lookupPlayer st tid = some tp)
    (hne : fid ≠ tid)
    (hx : fp.items.find? (fun i => i.item_id == x) = some X)
    (hnx : ∀ i ∈ tp.items, (i.item_id == x) = false)
    (hcost : fp.item_costs x = some c0)
    (htc : tp.item_costs x = none)
    (h0a : 0 ≤ a) (h0b : 0 ≤ b) (h0c : 0 ≤ c) (h0d : 0 ≤ d)
    (hnet : a + d = b + c)
    (ha : ¬ a > fp.cash) (hb : ¬ b > tp.cash)
    (hc : ¬ c > tp.cash + a - b) (hd : ¬ d > fp.cash - a + b) :
    (execute_trade st ⟨some x, none, a, b⟩ fid tid).2 = true
    ∧ (execute_trade (execute_trade st ⟨some x, none, a, b⟩ fid tid).1
        ⟨some x, none, c, d⟩ tid fid).2 = true
    ∧ (∃ fp2,
        lookupPlayer (execute_trade (execute_trade st ⟨some x, none, a, b⟩ fid tid).1
          ⟨some x, none, c, d⟩ tid fid).1 fid = some fp2
        ∧ fp2.cash = fp.cash
        ∧ fp2.item_costs = fp.item_costs
        ∧ fp2.items = fp.items.erase X ++ [X]
        ∧ fp2.items.Perm fp.items)
    ∧ (∃ tp2,
        lookupPlayer (execute_trade (execute_trade st ⟨some x, none, a, b⟩ fid tid).1
          ⟨some x, none, c, d⟩ tid fid).1 tid = some tp2
        ∧ tp2.cash = tp.cash
        ∧ tp2.item_costs = tp.item_costs
        ∧ tp2.items = tp.items) := by
  have hxid : X.item_id = x := by
    have hpX := List.find?_some hx
    simpa using hpX
  have hmemX : X ∈ fp.items := List.mem_of_find?_eq_some hx
  have hcX : fp.item_costs X.item_id = some c0 := by rw [hxid]; exact hcost
  have htcX : tp.item_costs X.item_id = none := by rw [hxid]; exact htc
  have hXnotin : X ∉ tp.items := fun hmem => by simpa [hxid] using hnx X hmem
  obtain ⟨hs1, hf1, ht1⟩ :=
    execute_trade_offer_only st fid tid x a b fp tp X hf ht hne hx ha hb h0a h0b
  have hx2 : (tp.items ++ [X]).find? (fun i => i.item_id == x) = some X := by
    rw [List.find?_append, List.find?_eq_none.mpr (fun i hi => by simp [hnx i hi])]
    simp [List.find?_cons, hxid]
  obtain ⟨hs2, ht2, hf2⟩ :=
    execute_trade_offer_only _ tid fid x c d _ _ X ht1 hf1 (Ne.symm hne)
      hx2 hc hd h0c h0d
  refine ⟨hs1, hs2, ⟨_, hf2, ?_, ?_, ?_, ?_⟩, ⟨_, ht2, ?_, ?_, ?_⟩⟩
  · show fp.cash - a + b + c - d = fp.cash
    linarith
  · simp only [hcX, Function.update_same, Function.update_idem]
    rw [← hcX]
    exact Function.update_eq_self _ _
  · rfl
  · exact (List.perm_append_singleton _ _).trans (List.perm_cons_erase hmemX).symm
  · show tp.cash + a - b - c + d = tp.cash
    linarith
  · simp only [hcX, Function.update_same, Function.update_idem]
    rw [← htcX]
    exact Function.update_eq_self _ _
  · show (tp.items ++ [X]).erase X = tp.items
    rw [List.erase_append_right _ hXnotin, List.erase_cons_head, List.append_nil]

/-- Witness for the C9 theorem on the concrete round-trip data. -/
theorem trade_round_trip_witness :
    (execute_trade stRound ⟨some "I", none, 0, 0⟩ "p1" "p2").2 = true
    ∧ (execute_trade (execute_trade stRound ⟨some "I", none, 0, 0⟩ "p1" "p2").1
        ⟨some "I", none, 0, 0⟩ "p2" "p1").2 = true
    ∧ (∃ fp2,
        lookupPlayer (execute_trade
          (execute_trade stRound ⟨some "I", none, 0, 0⟩ "p1" "p2").1
          ⟨some "I", none, 0, 0⟩ "p2" "p1").1 "p1" = some fp2
        ∧ fp2.cash = pRound1.cash
        ∧ fp2.item_costs = pRound1.item_costs
        ∧ fp2.items = pRound1.items.erase itemI ++ [itemI]
        ∧ fp2.items.Perm pRound1.items)
    ∧ (∃ tp2,
        lookupPlayer (execute_trade
          (execute_trade stRound ⟨some "I", none, 0, 0⟩ "p1" "p2").1
          ⟨some "I", none, 0, 0⟩ "p2" "p1").1 "p2" = some tp2
        ∧ tp2.cash = pRound2.cash
        ∧ tp2.item_costs = pRound2.item_costs
        ∧ tp2.items = pRound2.items) :=
  trade_round_trip stRound "p1" "p2" "I" 0 0 0 0 30 pRound1 pRound2 itemI
    (by simp [lookupPlayer, stRound, List.find?_cons, pRound1, pRound2])
    (by simp [lookupPlayer, stRound, List.find?_cons, pRound1, pRound2])
    (by decide)
    (by simp [pRound1, itemI, List.find?_cons])
    (by simp [pRound2])
    (by simp [pRound1])
    (by simp [pRound2])
    le_rfl le_rfl le_rfl le_rfl
    rfl
    (by norm_num [pRound1]) (by norm_num [pRound2])
    (by norm_num [pRound2]) (by norm_num [pRound1])

/-- C9 counterexample: sending item I from `pRound1` (inventory `[I, J]`) to
`pRound2` and back leaves `pRound1` with inventory `[J, I]` — the round trip
does not restore the inventory exactly, only up to permutation, because
`execute_trade` removes the item in place but appends the returned item at the
end. -/
theorem execute_trade_round_trip_reorders :
    (execute_trade stRound tdItemI "p1" "p2").2 = true
    ∧ (execute_trade (execute_trade stRound tdItemI "p1" "p2").1
        tdItemI "p2" "p1").2 = true
    ∧ (lookupPlayer (execute_trade (execute_trade stRound tdItemI "p1" "p2").1
          tdItemI "p2" "p1").1 "p1").map
        (fun p => p.items.map TournamentItem.item_id) = some ["J", "I"]
    ∧ (lookupPlayer stRound "p1").map
        (fun p => p.items.map TournamentItem.item_id) = some ["I", "J"]
    ∧ (["J", "I"] : List String) ≠ ["I", "J"] := by
  simp only [tdItemI]
  obtain ⟨hs1, hf1, ht1⟩ :=
    execute_trade_offer_only stRound "p1" "p2" "I" 0 0 pRound1 pRound2 itemI
      (by simp [lookupPlayer, stRound, List.find?_cons, pRound1, pRound2])
      (by simp [lookupPlayer, stRound, List.find?_cons, pRound1, pRound2])
      (by decide)
      (by simp [pRound1, itemI, List.find?_cons])
      (by norm_num [pRound1]) (by norm_num [pRound2]) le_rfl le_rfl
  have hx2 : (pRound2.items ++ [itemI]).find? (fun i => i.item_id == "I")
      = some itemI := by
    simp [pRound2, itemI, List.find?_cons]
  obtain ⟨hs2, ht2, hf2⟩ :=
    execute_trade_offer_only _ "p2" "p1" "I" 0 0 _ _ itemI ht1 hf1
      (by decide) hx2
      (by norm_num [pRound2]) (by norm_num [pRound1]) le_rfl le_rfl
  refine ⟨hs1, hs2, ?_, ?_, by decide⟩
  · rw [hf2]
    simp [pRound1, itemI, itemJ, List.erase_cons_head]
  · simp [lookupPlayer, stRound, List.find?_cons, pRound1, itemI, itemJ]

end Tournament

namespace Auction

/-- C6: for a sold auction whose winner is found among the buyers and whose
final price is set, `process_payment` records an AMOUNT_MISMATCH when the
intent's USD amount deviates from the final price by more than 5% and a
WRONG_RECIPIENT when the intent's recipient is not the seller, in the state's
payment_errors; the sale itself is untouched — status, winner and final_price
are unchanged by payment validation. -/
theorem process_payment_records_errors (seller_name : String)
    (buyers : List Buyer) (st : AuctionState) (buyer : Buyer) (fp : ℚ)
    (hst : st.status = AuctionStatus.SOLD)
    (hb : buyers.find? (fun b => some b.name == st.winner) = some buyer)
    (hfp : st.final_price = some fp) :
    ∃ st' outcome, process_payment seller_name buyers st = some (st', outcome)
      ∧ (|(buyer.create_payment_intent fp seller_name).amount_usd - fp|
            > fp * (5/100)
          → PaymentError.AMOUNT_MISMATCH ∈ st'.payment_errors)
      ∧ ((buyer.create_payment_intent fp seller_name).recipient ≠ seller_name
          → PaymentError.WRONG_RECIPIENT ∈ st'.payment_errors)
      ∧ st'.status = st.status
      ∧ st'.winner = st.winner
      ∧ st'.final_price = st.final_price := by
  unfold process_payment
  rw [hst, hb, hfp]
  rw [if_neg (by simp)]
  simp only []
  by_cases hA : |(buyer.create_payment_intent fp seller_name).amount_usd - fp|
      > fp * (5/100)
  · by_cases hB : (buyer.create_payment_intent fp seller_name).recipient
        ≠ seller_name
    · have herr : validate_payment_intent seller_name
          (buyer.create_payment_intent fp seller_name) fp
          = [PaymentError.AMOUNT_MISMATCH, PaymentError.WRONG_RECIPIENT] := by
        unfold validate_payment_intent
        rw [if_pos hA, if_pos hB]
        rfl
      rw [herr]
      refine ⟨_, _, by rw [if_neg (by simp)], ?_, ?_, ?_, ?_, ?_⟩
      · intro _
        simp
      · intro _
        simp
      · rfl
      · rfl
      · rfl
    · have herr : validate_payment_intent seller_name
          (buyer.create_payment_intent fp seller_name) fp
          = [PaymentError.AMOUNT_MISMATCH] := by
        unfold validate_payment_intent
        rw [if_pos hA, if_neg hB]
        rfl
      rw [herr]
      refine ⟨_, _, by rw [if_neg (by simp)], ?_, ?_, ?_, ?_, ?_⟩
      · intro _
        simp
      · intro h
        exact absurd h hB
      · rfl
      · rfl
      · rfl
  · by_cases hB : (buyer.create_payment_intent fp seller_name).recipient
        ≠ seller_name
    · have herr : validate_payment_intent seller_name
          (buyer.create_payment_intent fp seller_name) fp
          = [PaymentError.WRONG_RECIPIENT] := by
        unfold validate_payment_intent
        rw [if_neg hA, if_pos hB]
        rfl
      rw [herr]
      refine ⟨_, _, by rw [if_neg (by simp)], ?_, ?_, ?_, ?_, ?_⟩
      · intro h
        exact absurd h hA
      · intro _
        simp
      · rfl
      · rfl
      · rfl
    · have herr : validate_payment_intent seller_name
          (buyer.create_payment_intent fp seller_name) fp = [] := by
        unfold validate_payment_intent
        rw [if_neg hA, if_neg hB]
        rfl
      rw [herr]
      refine ⟨_, _, by rw [if_pos rfl], ?_, ?_, ?_, ?_, ?_⟩
      · intro h
        exact absurd h hA
      · intro h
        exact absurd h hB
      · rfl
      · rfl
      · rfl

/-- Witness for the C6 theorem on the sold auction `stSold` with the
misdirected, mispriced intent of `buyerW`. -/
theorem process_payment_records_errors_witness :
    ∃ st' outcome, process_payment "S" [buyerW] stSold = some (st', outcome)
      ∧ (|(buyerW.create_payment_intent 100 "S").amount_usd - 100|
            > 100 * (5/100)
          → PaymentError.AMOUNT_MISMATCH ∈ st'.payment_errors)
      ∧ ((buyerW.create_payment_intent 100 "S").recipient ≠ "S"
          → PaymentError.WRONG_RECIPIENT ∈ st'.payment_errors)
      ∧ st'.status = stSold.status
      ∧ st'.winner = stSold.winner
      ∧ st'.final_price = stSold.final_price :=
  process_payment_records_errors "S" [buyerW] stSold buyerW 100
    rfl
    (by simp [buyerW, stSold, List.find?_cons])
    rfl

theorem continueNegotiation_preserves (seller : Seller) (buyers : List Buyer)
    (round : ℕ)
    (hs : ∀ b, ∃ c, seller.respond_to_bid b = SellerResp.counter c)
    (hbc : ∀ buyer ∈ buyers, ∀ ca ob, ∃ na,
      buyer.respond_to_counter ca ob = BuyerResp.counter na) :
    ∀ fuel st bid depth,
      (continueNegotiation seller buyers round fuel st bid depth).status
        = st.status
      ∧ (continueNegotiation seller buyers round fuel st bid depth).winner
        = st.winner := by
  intro fuel
  induction fuel with
  | zero =>
    intro st bid depth
    exact ⟨rfl, rfl⟩
  | succ f ih =>
    intro st bid depth
    by_cases hd : 3 ≤ depth
    · simp only [continueNegotiation]
      rw [if_pos hd]
      exact ⟨rfl, rfl⟩
    · by_cases hsold : st.status = AuctionStatus.SOLD
      · simp only [continueNegotiation]
        rw [if_neg hd, if_pos hsold]
        exact ⟨rfl, rfl⟩
      · obtain ⟨c, hc⟩ := hs bid
        simp only [continueNegotiation, hc]
        rw [if_neg hd, if_neg hsold]
        simp only [handleCounterOfferContinueWith, modifyBidById]
        rw [if_neg hsold]
        cases hfind : buyers.find? (fun b => b.name == bid.bidder) with
        | none =>
          simp [hfind]
        | some buyer =>
          obtain ⟨na, hna⟩ :=
            hbc buyer (List.mem_of_find?_eq_some hfind) c bid.amount
          simp only [hfind, hna]
          exact ⟨(ih _ _ _).1, (ih _ _ _).2⟩

theorem handleCounterOffer_preserves (seller : Seller) (buyers : List Buyer)
    (round : ℕ)
    (hs : ∀ b, ∃ c, seller.respond_to_bid b = SellerResp.counter c)
    (hbc : ∀ buyer ∈ buyers, ∀ ca ob, ∃ na,
      buyer.respond_to_counter ca ob = BuyerResp.counter na)
    (st : AuctionState) (buyer_name : String) (counter_amount : ℚ) :
    (handleCounterOffer seller buyers round st buyer_name counter_amount).status
      = st.status
    ∧ (handleCounterOffer seller buyers round st buyer_name
        counter_amount).winner = st.winner := by
  unfold handleCounterOffer
  cases hfind : buyers.find? (fun b => b.name == buyer_name) with
  | none =>
    simp [hfind]
  | some buyer =>
    obtain ⟨na, hna⟩ :=
      hbc buyer (List.mem_of_find?_eq_some hfind) counter_amount
        (match st.bids.getLast? with
          | some b => b.amount
          | none => 0)
    simp only [hfind, hna]
    exact ⟨(continueNegotiation_preserves seller buyers round hs hbc 4 _ _ _).1,
      (continueNegotiation_preserves seller buyers round hs hbc 4 _ _ _).2⟩

theorem negotiate_result (seller : Seller) (buyers : List Buyer) (round : ℕ)
    (hs : ∀ b, ∃ c, seller.respond_to_bid b = SellerResp.counter c)
    (hbc : ∀ buyer ∈ buyers, ∀ ca ob, ∃ na,
      buyer.respond_to_counter ca ob = BuyerResp.counter na)
    (st : AuctionState) (bid : Bid) :
    (negotiate seller buyers round st bid).status = AuctionStatus.NEGOTIATING
    ∧ (negotiate seller buyers round st bid).winner = st.winner := by
  obtain ⟨c, hc⟩ := hs bid
  simp only [negotiate, hc]
  exact ⟨(handleCounterOffer_preserves seller buyers round hs hbc _ _ _).1,
    (handleCounterOffer_preserves seller buyers round hs hbc _ _ _).2⟩

theorem collectBids_preserves (buyers : List Buyer) :
    ∀ st : AuctionState,
      ((collectBids buyers st).2.status = st.status)
      ∧ ((collectBids buyers st).2.winner = st.winner) := by
  induction buyers with
  | nil =>
    intro st
    exact ⟨rfl, rfl⟩
  | cons b rest ih =>
    intro st
    cases hm : b.make_bid st.current_price st.bids with
    | some amount =>
      simp only [collectBids, hm]
      exact ⟨(ih _).1, (ih _).2⟩
    | none =>
      simp only [collectBids, hm]
      exact ⟨(ih _).1, (ih _).2⟩

theorem collectBids_first_some (b : Buyer) (rest : List Buyer)
    (st : AuctionState) (amt : ℚ)
    (hamt : b.make_bid st.current_price st.bids = some amt) :
    ∃ tailb st', collectBids (b :: rest) st
      = ({ bid_id := st.bids.length, bidder := b.name, amount := amt,
           status := BidStatus.PENDING } :: tailb, st') := by
  simp only [collectBids, hamt]
  exact ⟨_, _, rfl⟩

theorem runLoop_stalemate (seller : Seller) (b : Buyer) (rest : List Buyer)
    (max_rounds : ℕ)
    (hs : ∀ x, ∃ c, seller.respond_to_bid x = SellerResp.counter c)
    (hbc : ∀ buyer ∈ b :: rest, ∀ ca ob, ∃ na,
      buyer.respond_to_counter ca ob = BuyerResp.counter na)
    (hmk : ∀ buyer ∈ b :: rest, ∀ p h, ∃ amt, buyer.make_bid p h = some amt) :
    ∀ fuel round st, st.status = AuctionStatus.NEGOTIATING →
      (runLoop seller (b :: rest) max_rounds fuel round st).status
        = AuctionStatus.NEGOTIATING
      ∧ (runLoop seller (b :: rest) max_rounds fuel round st).winner
        = st.winner := by
  intro fuel
  induction fuel with
  | zero =>
    intro round st hstat
    exact ⟨hstat, rfl⟩
  | succ f ih =>
    intro round st hstat
    simp only [runLoop]
    by_cases hg : round < max_rounds ∧ st.status ≠ AuctionStatus.SOLD
    · rw [if_pos hg]
      obtain ⟨amt, hamt⟩ :=
        hmk b (List.mem_cons_self b rest) st.current_price st.bids
      obtain ⟨tailb, st', hcb⟩ := collectBids_first_some b rest st amt hamt
      have hw : st'.winner = st.winner := by
        have h := (collectBids_preserves (b :: rest) st).2
        rw [hcb] at h
        exact h
      simp only [hcb]
      have hneg := negotiate_result seller (b :: rest) (round + 1) hs hbc
        { st' with
          current_price := (firstMaxABid
            { bid_id := st.bids.length, bidder := b.name, amount := amt,
              status := BidStatus.PENDING } tailb).amount
          highest_bidder := some (firstMaxABid
            { bid_id := st.bids.length, bidder := b.name, amount := amt,
              status := BidStatus.PENDING } tailb).bidder }
        (firstMaxABid
          { bid_id := st.bids.length, bidder := b.name, amount := amt,
            status := BidStatus.PENDING } tailb)
      have hrec := ih (round + 1) _ hneg.1
      refine ⟨hrec.1, ?_⟩
      rw [hrec.2, hneg.2]
      exact hw
    · rw [if_neg hg]
      exact ⟨hstat, rfl⟩

/-- C5 (amended): the counter-offer recursion is bounded by the hardcoded
depth 3 (not configurable): at depth ≥ 3, `_continue_negotiation` returns with
the state untouched — the round ends with no sale and no error recorded.  When
every round stalls (seller and buyers always counter, every buyer always
bids), exhausting the round limit leaves the auction NEGOTIATING with no
winner: the auction does NOT become CANCELLED at the round limit (CANCELLED
arises only from a round with no bids). -/
theorem negotiation_depth_and_stalemate (seller : Seller) (b : Buyer)
    (rest : List Buyer) (max_rounds : ℕ) (item : AuctionItem)
    (hs : ∀ x, ∃ c, seller.respond_to_bid x = SellerResp.counter c)
    (hbc : ∀ buyer ∈ b :: rest, ∀ ca ob, ∃ na,
      buyer.respond_to_counter ca ob = BuyerResp.counter na)
    (hmk : ∀ buyer ∈ b :: rest, ∀ p h, ∃ amt, buyer.make_bid p h = some amt)
    (hmr : 1 ≤ max_rounds) :
    (∀ round fuel st bid depth, 3 ≤ depth →
        continueNegotiation seller (b :: rest) round fuel st bid depth = st)
    ∧ (∃ final, runAuction seller (b :: rest) max_rounds item = some final
        ∧ final.status = AuctionStatus.NEGOTIATING
        ∧ final.winner = none) := by
  constructor
  · intro round fuel st bid depth hd
    cases fuel with
    | zero => rfl
    | succ f =>
      simp only [continueNegotiation]
      rw [if_pos hd]
  · obtain ⟨f, rfl⟩ : ∃ f, max_rounds = f + 1 := ⟨max_rounds - 1, by omega⟩
    have hloop : (runLoop seller (b :: rest) (f + 1) (f + 1) 0
          { initAuctionState item with status := AuctionStatus.OPEN }).status
            = AuctionStatus.NEGOTIATING
        ∧ (runLoop seller (b :: rest) (f + 1) (f + 1) 0
          { initAuctionState item with status := AuctionStatus.OPEN }).winner
            = none := by
      obtain ⟨amt, hamt⟩ := hmk b (List.mem_cons_self b rest)
        ({ initAuctionState item with
            status := AuctionStatus.OPEN } : AuctionState).current_price
        ({ initAuctionState item with
            status := AuctionStatus.OPEN } : AuctionState).bids
      obtain ⟨tailb, st', hcb⟩ := collectBids_first_some b rest _ amt hamt
      have hw : st'.winner = none := by
        have h := (collectBids_preserves (b :: rest)
          { initAuctionState item with status := AuctionStatus.OPEN }).2
        rw [hcb] at h
        exact h
      simp only [runLoop]
      rw [if_pos ?hguard]
      case hguard => exact ⟨by omega, by simp [initAuctionState]⟩
      simp only [hcb]
      refine ⟨(runLoop_stalemate seller b rest (f + 1) hs hbc hmk f (0 + 1) _
        (negotiate_result seller (b :: rest) (0 + 1) hs hbc _ _).1).1, ?_⟩
      rw [(runLoop_stalemate seller b rest (f + 1) hs hbc hmk f (0 + 1) _
        (negotiate_result seller (b :: rest) (0 + 1) hs hbc _ _).1).2,
        (negotiate_result seller (b :: rest) (0 + 1) hs hbc _ _).2]
      exact hw
    unfold runAuction
    rw [if_neg (by rw [hloop.1]; simp)]
    exact ⟨_, rfl, hloop.1, hloop.2⟩

/-- Witness for the C5 theorem with the concrete all-counter oracles. -/
theorem negotiation_depth_and_stalemate_witness :
    (∀ round fuel st bid depth, 3 ≤ depth →
        continueNegotiation sellerC [buyerC] round fuel st bid depth = st)
    ∧ (∃ final, runAuction sellerC [buyerC] 1 itemC = some final
        ∧ final.status = AuctionStatus.NEGOTIATING
        ∧ final.winner = none) :=
  negotiation_depth_and_stalemate sellerC buyerC [] 1 itemC
    (fun _ => ⟨120, rfl⟩)
    (fun buyer hm ca ob => by
      obtain rfl := List.mem_singleton.mp hm
      exact ⟨110, rfl⟩)
    (fun buyer hm p h => by
      obtain rfl := List.mem_singleton.mp hm
      exact ⟨100, rfl⟩)
    le_rfl

/-- C5 counterexample: with one buyer who always bids and counters and a
seller who always counters, a 1-round auction exhausts its round limit in a
stalemate and ends NEGOTIATING, not CANCELLED — the round limit being
exhausted does not cancel the auction. -/
theorem auction_round_limit_not_cancelled :
    ∃ final, runAuction sellerC [buyerC] 1 itemC = some final
      ∧ final.status = AuctionStatus.NEGOTIATING
      ∧ final.status ≠ AuctionStatus.CANCELLED
      ∧ final.winner = none := by
  refine ⟨_, rfl, rfl, ?_, rfl⟩
  intro h
  cases h

end Auction

end Apollo
